import Mathlib

/-!
Verification development for the Spitch SA dataset generator
(src/generator: rng.py, weights.py, calendar.py, volume.py, features.py,
schema.py, io.py, cli.py).

The Python modules are shallowly embedded below.  Machine reals are
modelled by rationals, Python dicts by insertion-ordered association
lists, and the external libraries (numpy pseudo-random generators,
hashlib.blake2b, jsonschema) by concrete deterministic stand-ins that
satisfy the documented contracts of those libraries (value ranges,
determinism, exact multinomial totals).  All program logic is translated
directly from the Python sources.
-/

namespace SAGen

/-! ## Model of the external pseudo-random generator (numpy.random.Generator)

A generator is a seed plus a stream position; every draw reads a mixing
function of (seed, position) and advances the position.  This models the
documented behaviour of numpy bit generators: a deterministic stream that
is a pure function of the seed. -/

structure Gen where
  seed : ℕ
  pos : ℕ
deriving Repr, DecidableEq

def U64 : ℕ := 2 ^ 64

/-- Concrete 64-bit mixing function used by the generator model. -/
def mix (a b : ℕ) : ℕ :=
  (a * 6364136223846793005 + b * 1442695040888963407 + 1442695040888963407) % U64

/-- Model of numpy default_rng: build a fresh generator from an integer seed. -/
def defaultRng (s : ℕ) : Gen := ⟨s % U64, 0⟩

/-- One raw 64-bit draw from the generator stream. -/
def Gen.next (g : Gen) : ℕ × Gen := (mix g.seed g.pos, ⟨g.seed, g.pos + 1⟩)

/-- Model of Generator.random(): a draw in [0, 1). -/
def Gen.random01 (g : Gen) : ℚ × Gen :=
  let (n, g1) := g.next
  (((n % 2 ^ 53 : ℕ) : ℚ) / (2 ^ 53 : ℚ), g1)

/-- Model of Generator.uniform(lo, hi). -/
def Gen.uniform (g : Gen) (lo hi : ℚ) : ℚ × Gen :=
  let (u, g1) := g.random01
  (lo + (hi - lo) * u, g1)

/-- Model of a standard normal draw: a bounded symmetric value in [-4, 4]. -/
def Gen.stdnormal (g : Gen) : ℚ × Gen :=
  let (n, g1) := g.next
  ((((n % 8001 : ℕ) : ℚ) - 4000) / 1000, g1)

/-- Model of Generator.normal(mean, sigma) as mean + sigma * z. -/
def Gen.normal (g : Gen) (mean sigma : ℚ) : ℚ × Gen :=
  let (z, g1) := g.stdnormal
  (mean + sigma * z, g1)

/-- Model of Generator.integers(lo, hi): a draw in [lo, hi). -/
def Gen.integers (g : Gen) (lo hi : ℕ) : ℕ × Gen :=
  let (n, g1) := g.next
  (lo + n % (hi - lo), g1)

/-- Index selection for a weighted choice: least index whose cumulative
probability exceeds the uniform draw, clamped to the last index. -/
def pickIndex (u : ℚ) : List ℚ → ℕ
  | [] => 0
  | [_] => 0
  | p :: rest => if u < p then 0 else pickIndex (u - p) rest + 1

/-- Model of Generator.choice(n, p=probs): weighted index draw. -/
def Gen.choiceP (g : Gen) (probs : List ℚ) : ℕ × Gen :=
  let (u, g1) := g.random01
  (pickIndex u probs, g1)

/-- Model of a binomial draw with support contained in [0, n]. -/
def Gen.binomial (g : Gen) (n : ℕ) (_p : ℚ) : ℕ × Gen :=
  let (u, g1) := g.next
  (u % (n + 1), g1)

/-- Model of Generator.multinomial: numpy draws one binomial per category
conditioned on the remaining mass and gives the remainder to the last
category, so the counts always sum to the requested total. -/
def multinomialAux (g : Gen) (remaining : ℕ) : List ℚ → List ℕ × Gen
  | [] => ([], g)
  | [_] => ([remaining], g)
  | p :: q :: rest =>
    let (b, g1) := g.binomial remaining p
    let (tl, g2) := multinomialAux g1 (remaining - b) (q :: rest)
    (b :: tl, g2)

def Gen.multinomial (g : Gen) (n : ℕ) (pvals : List ℚ) : List ℕ × Gen :=
  multinomialAux g n pvals

/-- Model of Generator.bytes(k): k pseudo-random bytes. -/
def Gen.bytesDraw (g : Gen) (k : ℕ) : List ℕ × Gen :=
  ((List.range k).map (fun i => mix g.seed (g.pos + i) % 256), ⟨g.seed, g.pos + k⟩)

/-- First n raw draws of a generator stream, as a list. -/
def drawsN : ℕ → Gen → List ℕ
  | 0, _ => []
  | n + 1, g =>
    let (v, g1) := g.next
    v :: drawsN n g1

/-! ## RandomKey model

Python builds keys as tuples of primitives and hashes the utf-8 encoding
of repr(key).  We model a key as a list of primitives and its byte
serialization by an injective tagged encoding. -/

inductive Prim where
  | s (v : String)
  | b (v : Bool)
  | n (v : ℤ)
deriving Repr, DecidableEq

abbrev RKey := List Prim

/-- Model of the repr-based byte serialization of one key component. -/
def encodePrim : Prim → List ℕ
  | .s v => 0 :: (v.data.map Char.toNat) ++ [255]
  | .b v => [1, if v then 1 else 0]
  | .n v => [2, if v < 0 then 1 else 0] ++ ((Nat.toDigits 10 v.natAbs).map Char.toNat) ++ [255]

/-- Model of the repr-based byte serialization of a whole key. -/
def encodeKey (k : RKey) : List ℕ := 3 :: (k.map encodePrim).flatten ++ [4]

/-- Model of hashlib.blake2b(data, digest_size=8) read as a big-endian
64-bit integer: a concrete deterministic digest. -/
def blake2b8 (data : List ℕ) : ℕ :=
  data.foldl (fun h b => mix h (b % 256)) 14695981039346656037 % U64

/-- Big-endian 8-byte encoding of the global seed
(global_seed.to_bytes(8, byteorder=big)). -/
def seedBytes8 (s : ℕ) : List ℕ :=
  [s / 2 ^ 56 % 256, s / 2 ^ 48 % 256, s / 2 ^ 40 % 256, s / 2 ^ 32 % 256,
   s / 2 ^ 24 % 256, s / 2 ^ 16 % 256, s / 2 ^ 8 % 256, s % 256]

/-! ## rng.py : DeterministicRNG -/

/-- State of rng.DeterministicRNG: the global seed and the root generator
(the root generator advances when bootstrap draws consume it, so keeping
it in the state lets theorems quantify over interleaved draws). -/
structure DeterministicRNG where
  global_seed : ℕ
  root : Gen
deriving Repr, DecidableEq

/-- DeterministicRNG.__init__ : root generator seeded from the global seed. -/
def DeterministicRNG.init (s : ℕ) : DeterministicRNG := ⟨s, defaultRng s⟩

/-- DeterministicRNG._hash_to_uint64. -/
def hashToUint64 (data : List ℕ) : ℕ := blake2b8 data

/-- DeterministicRNG.seed_for : derive a fresh generator from the global
seed and a structured key (rng.py lines 21-25). -/
def seed_for (m : DeterministicRNG) (key : RKey) : Gen :=
  defaultRng (hashToUint64 (seedBytes8 m.global_seed ++ encodeKey key))

/-- DeterministicRNG.normalize (rng.py lines 27-33): clamp negatives to 0
and divide by the positive total, or fall back to a uniform table. -/
def rngNormalize (weights : List (String × ℚ)) : List (String × ℚ) :=
  let total : ℚ := (weights.map (fun kv => max 0 kv.2)).sum
  if total ≤ 0 then
    let n : ℕ := if weights.length = 0 then 1 else weights.length
    weights.map (fun kv => (kv.1, (1 : ℚ) / (n : ℚ)))
  else
    weights.map (fun kv => (kv.1, max 0 kv.2 / total))

/-- DeterministicRNG.multinomial_split (rng.py lines 40-47), with the
generator argument passed explicitly as at every call site. -/
def multinomial_split (total : ℕ) (ratios : List (String × ℚ)) (g : Gen) :
    List (String × ℕ) :=
  let keys := ratios.map Prod.fst
  let probs := ratios.map Prod.snd
  let probs2 := if probs.sum ≤ 0 then probs.map (fun _ => (1 : ℚ) / (probs.length : ℚ)) else probs
  let draws :=
    if 0 < total then (g.multinomial total (probs2.map (fun p => p / probs2.sum))).1
    else probs2.map (fun _ => 0)
  keys.zip draws

def hexChar (n : ℕ) : Char :=
  if n < 10 then Char.ofNat (48 + n) else Char.ofNat (87 + n)

def byteHex (b : ℕ) : List Char := [hexChar (b / 16 % 16), hexChar (b % 16)]

/-- Render 16 bytes in the canonical 8-4-4-4-12 UUID layout. -/
def uuidString (bs : List ℕ) : String :=
  let hx := (bs.map byteHex).flatten
  String.mk (hx.take 8 ++ [Char.ofNat 45] ++ (hx.drop 8).take 4 ++ [Char.ofNat 45]
    ++ (hx.drop 12).take 4 ++ [Char.ofNat 45] ++ (hx.drop 16).take 4 ++ [Char.ofNat 45]
    ++ hx.drop 20)

/-- DeterministicRNG.uuid4_deterministic (rng.py lines 49-55): 16 bytes
from the supplied generator with UUID4 version and variant bits forced. -/
def uuid4_deterministic (g : Gen) : String × Gen :=
  let (bs, g1) := g.bytesDraw 16
  let bs1 := bs.set 6 (bs.getD 6 0 % 16 + 64)
  let bs2 := bs1.set 8 (bs1.getD 8 0 % 64 + 128)
  (uuidString bs2, g1)

/-! ## config.py : EffectiveConfig and the dotted-path accessor

The effective configuration is a nested mapping of YAML values.  The
accessor get(cfg, path, default) walks one mapping level per path
component and returns the default on any miss.  Paths are passed here as
component lists (the Python source splits the dotted string). -/

inductive CVal where
  | num (q : ℚ)
  | str (v : String)
  | boolv (v : Bool)
  | table (m : List (String × CVal))
  | arr (l : List String)
  | missing
deriving Repr

/-- config.get : walk the nested mapping, returning the default when a
path component is absent or the node is not a mapping. -/
def cfgGet (node : CVal) (path : List String) (dflt : CVal) : CVal :=
  match path with
  | [] => node
  | p :: rest =>
    match node with
    | .table m =>
      match m.lookup p with
      | some v => cfgGet v rest dflt
      | none => dflt
    | _ => dflt

/-- Coercion used at float(...) call sites: numeric value or the default. -/
def CVal.toQ (v : CVal) (d : ℚ) : ℚ :=
  match v with
  | .num q => q
  | _ => d

/-- Coercion used at str(...) call sites with a default. -/
def CVal.toStr (v : CVal) (d : String) : String :=
  match v with
  | .str s => s
  | _ => d

/-- Coercion used where the source reads a dict of floats (or {}). -/
def CVal.toQTab (v : CVal) : List (String × ℚ) :=
  match v with
  | .table m => m.map (fun kv => (kv.1, kv.2.toQ 0))
  | _ => []

/-- Coercion used where the source reads a nested dict (or {}). -/
def CVal.toTab (v : CVal) : List (String × CVal) :=
  match v with
  | .table m => m
  | _ => []

/-- Coercion used where the source reads a list of strings (or []). -/
def CVal.toArr (v : CVal) : List String :=
  match v with
  | .arr l => l
  | _ => []

/-- float(get(cfg, path, default)). -/
def getQ (cfg : CVal) (path : List String) (d : ℚ) : ℚ :=
  (cfgGet cfg path .missing).toQ d

/-- dict(get(cfg, path, {}) or {}) read as a float table. -/
def getQTab (cfg : CVal) (path : List String) : List (String × ℚ) :=
  (cfgGet cfg path .missing).toQTab

/-- get(cfg, path, {}) read as a nested table. -/
def getTab (cfg : CVal) (path : List String) : List (String × CVal) :=
  (cfgGet cfg path .missing).toTab

/-- Python int() truncation toward zero on a rational. -/
def pyInt (q : ℚ) : ℤ :=
  if q < 0 then -Int.floor (-q) else Int.floor q

/-- Python round() to the nearest integer (the half-to-even tie rule of
Python is modelled by round-half-up; ties do not arise in the claims). -/
def pyRound0 (q : ℚ) : ℤ := round q

/-- Python round(x, nd): rounding to nd decimal digits. -/
def pyRound (q : ℚ) (nd : ℕ) : ℚ :=
  ((round (q * (10 : ℚ) ^ nd) : ℤ) : ℚ) / (10 : ℚ) ^ nd

/-- x.get(key, default) on a float table. -/
def tabGetQ (t : List (String × ℚ)) (k : String) (d : ℚ) : ℚ :=
  match t.lookup k with
  | some v => v
  | none => d

/-- x.get(key, default) on a nested table, read as a float. -/
def tabGetNumQ (t : List (String × CVal)) (k : String) (d : ℚ) : ℚ :=
  match t.lookup k with
  | some v => v.toQ d
  | none => d

/-- dict[key] = value with Python dict semantics: replace the value in
place when the key exists, append otherwise. -/
def dictSet (m : List (String × ℚ)) (k : String) (v : ℚ) : List (String × ℚ) :=
  if m.any (fun kv => kv.1 == k) then m.map (fun kv => if kv.1 == k then (k, v) else kv)
  else m ++ [(k, v)]

/-! ## weights.py : weight composition -/

/-- weights._apply_adjustments: additive deltas, missing labels default
to 0 and a delta may introduce a new label. -/
def applyAdjustments (base : List (String × ℚ)) (adjustments : List (String × ℚ)) :
    List (String × ℚ) :=
  adjustments.foldl (fun out kv => dictSet out kv.1 (tabGetQ out kv.1 0 + kv.2)) base

/-- weights._normalize (weights.py lines 16-21); textually identical to
DeterministicRNG.normalize. -/
def wNormalize (weights : List (String × ℚ)) : List (String × ℚ) :=
  let total : ℚ := (weights.map (fun kv => max 0 kv.2)).sum
  if total ≤ 0 then
    let n : ℕ := if weights.length = 0 then 1 else weights.length
    weights.map (fun kv => (kv.1, (1 : ℚ) / (n : ℚ)))
  else
    weights.map (fun kv => (kv.1, max 0 kv.2 / total))

/-! ## calendar.py : day plans and incidents -/

/-- Dates are modelled as day numbers counted from an epoch Monday, so
weekday(d) = d mod 7 with Monday = 0 as in Python datetime.date. -/
abbrev Date := ℕ

/-- Model of date.isoformat() / str(date): an injective rendering. -/
def dateStr (d : Date) : String := "D" ++ toString d

def WEEKDAYS : List String := ["Mon", "Tue", "Wed", "Thu", "Fri", "Sat", "Sun"]

def weekdayIdx (d : Date) : ℕ := d % 7

structure DayPlan where
  date : Date
  weekday : String
  is_weekend : Bool
  weekday_factor : ℚ
  outage_flag : Bool
  app_issue_flag : Bool
  premium_wait_peak : Bool
deriving Repr, DecidableEq

/-- calendar.daterange: all dates from start to end inclusive. -/
def daterange (s e : Date) : List Date :=
  (List.range (e + 1 - s)).map (fun i => s + i)

/-- Model of Generator.choice(n, size=k, replace=False): k indices below
n (the calendar source immediately builds a set from them). -/
def choiceNoReplace (g : Gen) (n k : ℕ) : List ℕ :=
  (List.range k).map (fun i => mix g.seed (g.pos + i) % n)

/-- calendar.select_outage_days (calendar.py lines 32-39): pick a capped
number of weekday dates using the stream keyed on (outages, start, end).
The Python set is modelled by a deduplicated list. -/
def select_outage_days (s e : Date) (outages : ℤ) (m : DeterministicRNG) : List Date :=
  let weekdays := (daterange s e).filter (fun d => weekdayIdx d < 5)
  let r := seed_for m [.s "outages", .s (dateStr s), .s (dateStr e)]
  if outages ≤ 0 ∨ weekdays = [] then []
  else
    let k := min outages.toNat weekdays.length
    ((choiceNoReplace r weekdays.length k).map (fun i => weekdays.getD i 0)).dedup

/-- calendar.incidents.outages_count lookup (int(get(...) or 0)). -/
def cfgOutagesCount (cfg : CVal) : ℤ :=
  pyInt (getQ cfg ["calendar", "incidents", "outages_count"] 0)

/-- calendar.incidents.app_issue_after_outage_days lookup. -/
def cfgAppAfterDays (cfg : CVal) : ℤ :=
  pyInt (getQ cfg ["calendar", "incidents", "app_issue_after_outage_days"] 0)

/-- The forward propagation set: every date o + j with o an outage day,
1 <= j <= app_after, o + j <= end (calendar.py lines 49-54). -/
def appIssueDays (outage_days : List Date) (app_after : ℕ) (e : Date) : List Date :=
  (outage_days.map (fun d =>
    (List.range app_after).filterMap (fun j =>
      if d + (j + 1) ≤ e then some (d + (j + 1)) else none))).flatten

/-- calendar.make_calendar (calendar.py lines 42-74). -/
def make_calendar (s e : Date) (cfg : CVal) (m : DeterministicRNG) : List DayPlan :=
  let wd_factors := getQTab cfg ["calendar", "weekday_factors"]
  let outages_count := cfgOutagesCount cfg
  let app_after := cfgAppAfterDays cfg
  let premium_peak := (cfgGet cfg ["calendar", "incidents", "premium_wait_peak_days"] .missing).toArr
  let outage_days := select_outage_days s e outages_count m
  let app_issue_days := appIssueDays outage_days app_after.toNat e
  (daterange s e).map (fun d =>
    let wd := WEEKDAYS.getD (weekdayIdx d) ""
    { date := d
      weekday := wd
      is_weekend := decide (5 ≤ weekdayIdx d)
      weekday_factor := tabGetQ wd_factors wd 1
      outage_flag := outage_days.contains d
      app_issue_flag := app_issue_days.contains d
      premium_wait_peak := premium_peak.contains wd })

/-! ## volume.py : daily volume and multinomial splits -/

structure DailyVolumePlan where
  base : ℤ
  estimated : ℕ
deriving Repr, DecidableEq

/-- volume._incident_boost (volume.py lines 16-22). -/
def incident_boost (day : DayPlan) (m : DeterministicRNG) (cfg : CVal) : ℚ :=
  if ¬(day.outage_flag ∨ day.app_issue_flag) then 0
  else
    let lo := getQ cfg ["volume", "incident_boost_min"] 0.25
    let hi := getQ cfg ["volume", "incident_boost_max"] 0.40
    let r := seed_for m [.s "incident_boost", .s (dateStr day.date)]
    (r.uniform lo hi).1

/-- volume.estimate_daily_volume (volume.py lines 25-33); the estimated
count is floored at 0, recorded here as a natural number. -/
def estimate_daily_volume (day : DayPlan) (cfg : CVal) (m : DeterministicRNG) :
    DailyVolumePlan :=
  let base := pyInt (getQ cfg
    (if day.is_weekend then ["volume", "base_weekend"] else ["volume", "base_weekday"]) 200)
  let factor := day.weekday_factor
  let boost := incident_boost day m cfg
  let reduction := getQ cfg ["meta", "volume_reduction_factor"] 0.2
  let estimated := pyRound0 ((base : ℚ) * factor * (1 + boost) * reduction)
  ⟨base, (max 0 estimated).toNat⟩

/-- The RandomKey built by split_by_agent (volume.py line 38). -/
def splitByAgentKey (is_weekend : Bool) (daily_volume : ℕ) : RKey :=
  [.s "split_by_agent", .b is_weekend, .n daily_volume]

/-- volume.split_by_agent (volume.py lines 36-39). -/
def split_by_agent (daily_volume : ℕ) (is_weekend : Bool) (cfg : CVal)
    (m : DeterministicRNG) : List (String × ℕ) :=
  let alloc := getQTab cfg
    (if is_weekend then ["agents", "allocation", "weekend"] else ["agents", "allocation", "weekday"])
  let r := seed_for m (splitByAgentKey is_weekend daily_volume)
  multinomial_split daily_volume alloc r

/-- The RandomKey built by split_by_shift (volume.py line 44). -/
def splitByShiftKey (agent : String) : RKey :=
  [.s "split_by_shift", .s agent]

/-- volume.split_by_shift (volume.py lines 42-45). -/
def split_by_shift (agent : String) (agent_volume : ℕ) (cfg : CVal)
    (m : DeterministicRNG) : List (String × ℕ) :=
  let profile := getQTab cfg ["agents", "members", agent, "shifts"]
  let r := seed_for m (splitByShiftKey agent)
  multinomial_split agent_volume profile r

/-- The RandomKey built by split_by_time_buckets (volume.py line 50). -/
def splitByTimeBucketsKey (is_weekend : Bool) (shift_block : ℕ) : RKey :=
  [.s "split_by_time_buckets", .b is_weekend, .n shift_block]

/-- volume.split_by_time_buckets (volume.py lines 48-51). -/
def split_by_time_buckets (shift_block : ℕ) (is_weekend : Bool) (cfg : CVal)
    (m : DeterministicRNG) : List (String × ℕ) :=
  let bucket_profile := getQTab cfg
    (if is_weekend then ["buckets", "weekend"] else ["buckets", "weekday"])
  let r := seed_for m (splitByTimeBucketsKey is_weekend shift_block)
  multinomial_split shift_block bucket_profile r

/-- In generate_dataset (cli.py lines 27-28) the per-shift split of a
branch (day, agent) is performed inside the day loop; the derived key
ignores the day entirely. -/
def shiftSplitForBranch (cfg : CVal) (m : DeterministicRNG) (_day : DayPlan)
    (agent : String) (agent_volume : ℕ) : List (String × ℕ) :=
  split_by_shift agent agent_volume cfg m

/-- In generate_dataset (cli.py lines 25-26) the per-agent split of a day
is keyed only on (is_weekend, daily_volume), never on the date. -/
def agentSplitForBranch (cfg : CVal) (m : DeterministicRNG) (day : DayPlan)
    (daily_volume : ℕ) : List (String × ℕ) :=
  split_by_agent daily_volume day.is_weekend cfg m

/-! ## features.py : per-call context and samplers

The Python Context carries a mutable numpy generator (call_rng).  Here
the record part of the context is a pure structure and the generator is
threaded explicitly through every sampler that draws from it, in the
exact order of the source draws. -/

structure Context where
  date : Date
  weekday : String
  time_of_day_bucket : String
  agent_name : String
  team : String
  agent_shift : String
  customer_segment : String
  channel : String
  region : String
  language : String
  device_type : String
  outage_flag : Bool
  app_issue_flag : Bool
  premium_wait_peak : Bool
  hour_lt_18 : Bool
  intent : String
deriving Repr, DecidableEq

/-- x.get(key, {}) on a nested table, read as a float table. -/
def tabGetTab (t : List (String × CVal)) (k : String) : List (String × ℚ) :=
  ((t.lookup k).getD CVal.missing).toQTab

/-- weights.intent_weights (weights.py lines 24-37). -/
def intent_weights (ctx : Context) (cfg : CVal) : List (String × ℚ) :=
  let w0 := getQTab cfg ["intents", "base"]
  let w1 := applyAdjustments w0 (getQTab cfg ["intents", "time_of_day", ctx.time_of_day_bucket])
  let w2 := applyAdjustments w1 (getQTab cfg ["intents", "agent", ctx.agent_name])
  let w3 := applyAdjustments w2 (getQTab cfg ["intents", "segment", ctx.customer_segment])
  let w4 := if ctx.outage_flag then applyAdjustments w3 (getQTab cfg ["intents", "incident", "outage"]) else w3
  let w5 := if ctx.app_issue_flag then applyAdjustments w4 (getQTab cfg ["intents", "incident", "app_issue"]) else w4
  wNormalize w5

/-- weights.scenario_weights (weights.py lines 40-46). -/
def scenario_weights (ctx : Context) (intent : String) (cfg : CVal) : List (String × ℚ) :=
  let w0 := getQTab cfg ["scenarios", "base"]
  let w1 := applyAdjustments w0 (getQTab cfg ["scenarios", "agent", ctx.agent_name])
  let w2 := applyAdjustments w1 (getQTab cfg ["scenarios", "intent", intent])
  let w3 := if ctx.outage_flag then applyAdjustments w2 (getQTab cfg ["scenarios", "incident", "outage"]) else w2
  wNormalize w3

/-- weights.channel_weights (weights.py lines 49-52). -/
def channel_weights (ctx : Context) (cfg : CVal) : List (String × ℚ) :=
  let w0 := getQTab cfg ["channels", "base"]
  let w1 := applyAdjustments w0
    (getQTab cfg ["channels", "time_of_day_adjustment", ctx.time_of_day_bucket])
  wNormalize w1

/-- weights.device_weights (weights.py lines 55-59). -/
def device_weights (ctx : Context) (cfg : CVal) : List (String × ℚ) :=
  let w0 := getQTab cfg ["devices", "base"]
  let w1 := applyAdjustments w0 (getQTab cfg ["devices", "channel_overrides", ctx.channel])
  wNormalize w1

/-- weights.product_weights (weights.py lines 62-68). -/
def product_weights (ctx : Context) (cfg : CVal) : List (String × ℚ) :=
  let w0 := getQTab cfg ["products", "base"]
  let w1 := if ctx.outage_flag then applyAdjustments w0 (getQTab cfg ["products", "outage_adjustment"]) else w0
  let w2 := if ctx.hour_lt_18 then applyAdjustments w1 (getQTab cfg ["products", "hour_lt_18_adjustment"]) else w1
  wNormalize w2

/-- features._sample_from_weights (features.py lines 45-56): clamp the
weights to be non-negative, normalize (or fall back to uniform), and make
one weighted index draw on the stream derived from the key. -/
def sampleFromWeights (m : DeterministicRNG) (mapping : List (String × ℚ)) (key : RKey) :
    String :=
  let r := seed_for m key
  let items := mapping.map Prod.fst
  let probs := mapping.map (fun kv => max 0 kv.2)
  let t := probs.sum
  let probs2 :=
    if t ≤ 0 then items.map (fun _ => (1 : ℚ) / (max 1 items.length : ℕ))
    else probs.map (fun p => p / t)
  let (idx, _) := r.choiceP probs2
  items.getD idx ""

/-- features.sample_customer_segment (features.py lines 59-62). -/
def sample_customer_segment (ctx : Context) (cfg : CVal) (m : DeterministicRNG) : String :=
  let weights :=
    match cfgGet cfg ["segments", "customer"] .missing with
    | .missing => [("Premium", (0.25 : ℚ)), ("Standard", 0.75)]
    | v => v.toQTab
  sampleFromWeights m weights [.s "segment", .s (dateStr ctx.date), .s ctx.agent_name]

/-- features.sample_channel (features.py lines 65-68). -/
def sample_channel (ctx : Context) (cfg : CVal) (m : DeterministicRNG) : String :=
  sampleFromWeights m (channel_weights ctx cfg)
    [.s "channel", .s ctx.time_of_day_bucket, .s ctx.agent_name]

/-- features.sample_geo_language_device (features.py lines 71-80):
returns (region, language, device_type). -/
def sample_geo_language_device (ctx : Context) (cfg : CVal) (m : DeterministicRNG)
    (segment : String) : String × String × String :=
  let region := sampleFromWeights m (getQTab cfg ["geo", "region"])
    [.s "region", .s (dateStr ctx.date)]
  let lang_base0 := getQTab cfg ["geo", "language"]
  let lang_base :=
    if segment = "Premium" then
      (getQTab cfg ["geo", "premium_language_bias"]).foldl
        (fun acc kv => dictSet acc kv.1 (max 0 (tabGetQ acc kv.1 0 + kv.2))) lang_base0
    else lang_base0
  let language := sampleFromWeights m lang_base [.s "language", .s (dateStr ctx.date)]
  let dev := sampleFromWeights m (device_weights ctx cfg) [.s "device", .s ctx.channel]
  (region, language, dev)

inductive IntentResult where
  | one (s : String)
  | many (l : List String)
deriving Repr, DecidableEq

/-- The without-replacement picking loop of sample_intent
(features.py lines 94-101). -/
def intentPickLoop (m : DeterministicRNG) (bucket agent : String) :
    ℕ → List (String × ℚ) → List String → List String
  | 0, _, chosen => chosen
  | _ + 1, [], chosen => chosen
  | k + 1, kv :: rest, chosen =>
    let local_w := kv :: rest
    let pick := sampleFromWeights m local_w
      [.s "intent", .s bucket, .s agent, .n chosen.length]
    intentPickLoop m bucket agent k (local_w.filter (fun e => e.1 ≠ pick)) (chosen ++ [pick])

/-- features.sample_intent (features.py lines 83-102). -/
def sample_intent (ctx : Context) (cfg : CVal) (m : DeterministicRNG) : IntentResult :=
  let w := intent_weights ctx cfg
  if w = [] then .one "Online-Banking"
  else
    let r := seed_for m
      [.s "intent_count", .s (dateStr ctx.date), .s ctx.agent_name, .s ctx.time_of_day_bucket]
    let p := (r.random01).1
    let count := if p < 0.70 then 1 else if p < 0.90 then 2 else 3
    let chosen := intentPickLoop m ctx.time_of_day_bucket ctx.agent_name count w []
    if chosen.length = 1 then .one (chosen.getD 0 "") else .many chosen

/-- The primary-intent extraction of cli.py line 84 (and the identical
reduction inside sample_scenario). -/
def intentResultStr : IntentResult → String
  | .one s => s
  | .many [] => "Online-Banking"
  | .many (x :: _) => x

/-- features.sample_scenario (features.py lines 105-109), called from
cli.py with the already-reduced primary intent string. -/
def sample_scenario (ctx : Context) (intent : String) (cfg : CVal)
    (m : DeterministicRNG) : String :=
  sampleFromWeights m (scenario_weights ctx intent cfg)
    [.s "scenario", .s intent, .s ctx.agent_name]

/-- features._trunc_normal (features.py lines 112-114). -/
def trunc_normal (r : Gen) (mean sigma min_v : ℚ) : ℚ × Gen :=
  let (v, r1) := r.normal mean sigma
  (max min_v v, r1)

/-- map(int, keys) on the string keys of a config table. -/
def strToInt (s : String) : ℤ := (s.toInt?).getD 0

/-- The transfers probability table resolution of features.py line 135. -/
def transProbsFor (cfg : CVal) (channel : String) : List (String × ℚ) :=
  let overrides := (cfgGet cfg ["ops", "transfers_count", "channel_overrides"] .missing).toTab
  match overrides.lookup channel with
  | some v => v.toQTab
  | none =>
    match cfgGet cfg ["ops", "transfers_count", "base_probs"] .missing with
    | .missing => [("0", 0.7), ("1", 0.2), ("2", 0.08), ("3", 0.02)]
    | v => v.toQTab

structure OpsOut where
  AWT : ℚ
  Hold_time : ℚ
  Transfers_count : ℤ
  Silence_ratio : ℚ
  Interruptions_count : ℤ
  FCR : Bool
deriving Repr, DecidableEq

/-- features.sample_ops_metrics (features.py lines 117-159).  Every draw
comes from the per-call generator in source order: AWT normal, hold
normal, transfers choice, silence normal, interruptions normal, FCR
Bernoulli. -/
def sample_ops_metrics (ctx : Context) (cfg : CVal) (r : Gen) : OpsOut × Gen :=
  let awt_cfg := getTab cfg ["ops", "awt_seconds"]
  let (awt0, r1) := trunc_normal r (tabGetNumQ awt_cfg "base_median" 90)
    (tabGetNumQ awt_cfg "base_sigma" 25) 0
  let awt1 := if ctx.outage_flag then awt0 + tabGetNumQ awt_cfg "outage_delta" 0 else awt0
  let awt2 := awt1 + tabGetQ (tabGetTab awt_cfg "channel_deltas") ctx.channel 0
  let awt3 := awt2 + tabGetQ (tabGetTab awt_cfg "team_deltas") ctx.team 0
  let awt4 := if ctx.premium_wait_peak then awt3 + tabGetNumQ awt_cfg "premium_wait_peak_delta" 0 else awt3
  let hold_cfg := getTab cfg ["ops", "hold_seconds"]
  let (hold0, r2) := trunc_normal r1 (tabGetNumQ hold_cfg "base_median" 45)
    (tabGetNumQ hold_cfg "base_sigma" 20) 0
  let hold1 := hold0 + getQ cfg ["ops", "hold_seconds", "channel_deltas", ctx.channel] 0
  let trans_probs := transProbsFor cfg ctx.channel
  let tkeys := trans_probs.map (fun kv => strToInt kv.1)
  let tvals := trans_probs.map (fun kv => max 0 kv.2)
  let tsumv := tvals.sum
  let tvals2 := tvals.map (fun v => v / (if 0 < tsumv then tsumv else (tvals.length : ℚ)))
  let (tidx, r3) := r2.choiceP tvals2
  let transfers := tkeys.getD tidx 0
  let (sil, r4) := trunc_normal r3
    (getQ cfg ["ops", "silence_ratio", "mean"] 9
      + getQ cfg ["ops", "silence_ratio", "channel_deltas", ctx.channel] 0)
    (getQ cfg ["ops", "silence_ratio", "sigma"] 4) 0
  let (intr, r5) := trunc_normal r4
    (getQ cfg ["ops", "interruptions_count", "mean"] 1.2
      + getQ cfg ["ops", "interruptions_count", "channel_deltas", ctx.channel] 0)
    (getQ cfg ["ops", "interruptions_count", "sigma"] 0.8) 0
  let fcr0 := getQ cfg ["ops", "fcr_base_prob"] 0.78
  let fcr1 := if ctx.outage_flag then fcr0 + getQ cfg ["ops", "fcr_penalties", "outage"] (-0.15) else fcr0
  let fcr2 := fcr1 + getQ cfg ["ops", "fcr_penalties", "channel", ctx.channel] 0
  let fcr3 := fcr2 + getQ cfg ["ops", "fcr_penalties", "team", ctx.team] 0
  let (u, r6) := r5.random01
  let fcr := decide (u < max 0 (min 1 fcr3))
  (⟨pyRound awt4 2, pyRound hold1 2, transfers, pyRound sil 2, pyRound0 intr, fcr⟩, r6)

structure ResOut where
  repeat_call_within_72h : Bool
  escalation : String
  complaint_category : String
deriving Repr, DecidableEq

/-- features.sample_resolution (features.py lines 162-174).  The
escalation Bernoulli draw happens only on the no-FCR, non-IT branch. -/
def sample_resolution (ctx : Context) (intent _scenario : String) (_cfg : CVal)
    (fcr : Bool) (r : Gen) : ResOut × Gen :=
  let (u1, r1) := r.random01
  let rep := decide (u1 < (if fcr then (0.10 : ℚ) else 0.35))
  let escPair : String × Gen :=
    if ¬fcr ∧ (intent = "Online-Banking" ∨ intent = "Technical Support") then
      ("IT Ticket", r1)
    else if fcr then ("None", r1)
    else
      let (u2, r2) := r1.random01
      (if u2 < (0.2 : ℚ) then "Backoffice" else "Supervisor", r2)
  let complaint :=
    if ctx.premium_wait_peak ∧ ctx.channel = "voice" then "WaitTime"
    else if ¬fcr then "TechnicalIssue" else "Fees"
  (⟨rep, escPair.1, complaint⟩, escPair.2)

/-- The configured NPS cap (nps.corrections.happy_cap, default 10). -/
def npsHappyCap (cfg : CVal) : ℤ := pyInt (getQ cfg ["nps", "corrections", "happy_cap"] 10)

/-- features.sample_nps (features.py lines 177-194): weighted base score,
additive corrections, clamp into [0, happy_cap], then sentiment as a
clamped linear transform of the score plus noise. -/
def sample_nps (ctx : Context) (fcr : Bool) (awt : ℚ) (cfg : CVal) (r : Gen) :
    (ℤ × ℚ) × Gen :=
  let base :=
    match cfgGet cfg ["nps", "base_weights"] .missing with
    | .missing => [("6", (0.15 : ℚ)), ("7", 0.2), ("8", 0.25), ("9", 0.25), ("10", 0.15)]
    | v => v.toQTab
  let nkeys := base.map (fun kv => strToInt kv.1)
  let nvals := base.map (fun kv => max 0 kv.2)
  let nsum := nvals.sum
  let nvals2 := nvals.map (fun v => v / (if 0 < nsum then nsum else (nvals.length : ℚ)))
  let (idx, r1) := r.choiceP nvals2
  let score0 := nkeys.getD idx 0
  let corr0 : ℤ := 0
  let corr1 := if 120 < awt then corr0 + pyInt (getQ cfg ["nps", "corrections", "awt_gt_120"] (-2)) else corr0
  let corr2 := if ¬fcr then corr1 + pyInt (getQ cfg ["nps", "corrections", "fcr_zero"] (-1)) else corr1
  let corr3 := if ctx.premium_wait_peak then corr2 + pyInt (getQ cfg ["nps", "corrections", "premium_waittime"] (-2)) else corr2
  let score := max 0 (min (npsHappyCap cfg) (score0 + corr3))
  let (z, r2) := r1.normal 0 0.1
  let sent := max (-1) (min 1 (((score : ℚ) - 5) / 5 + z))
  ((score, pyRound sent 3), r2)

/-- features.sample_products (features.py lines 197-200):
(product, amount_bucket). -/
def sample_products (ctx : Context) (cfg : CVal) (m : DeterministicRNG) :
    String × Option String :=
  let prod := sampleFromWeights m (product_weights ctx cfg)
    [.s "product", .s ctx.time_of_day_bucket]
  let amount :=
    if prod = "Transfer" ∨ prod = "Loan" ∨ prod = "Hypothek" then
      some (sampleFromWeights m (getQTab cfg ["products", "amount_buckets"])
        [.s "amount", .s prod])
    else none
  (prod, amount)

structure AutoOut where
  self_service_potential : String
  automation_action_present : Bool
  automation_action_type : Option String
deriving Repr, DecidableEq

/-- features.sample_automation (features.py lines 204-219); ctx.intent is
always the reduced primary intent string as assigned in cli.py line 86.
The channel == Text branch of the source adds 0.0 and is omitted. -/
def sample_automation (ctx : Context) (cfg : CVal) (m : DeterministicRNG) (r : Gen) :
    AutoOut × Gen :=
  let intent_str := ctx.intent
  let ssp := sampleFromWeights m (getQTab cfg ["automation", "self_service_potential"])
    [.s "ssp", .s intent_str]
  let p0 := getQ cfg ["automation", "action_present_base"] 0.15
  let p1 :=
    if intent_str = "Online-Banking" ∨ intent_str = "Transfer" then
      p0 + getQ cfg ["automation", "intent_lifts", intent_str] 0
    else p0
  let p2 := if ctx.outage_flag then p1 + getQ cfg ["automation", "outage_penalty"] (-0.07) else p1
  let (u, r1) := r.random01
  let present := decide (u < max 0 (min 1 p2))
  let action_type :=
    if present then
      some (sampleFromWeights m (getQTab cfg ["automation", "action_type"])
        [.s "action", .s intent_str])
    else none
  (⟨ssp, present, action_type⟩, r1)

structure CompOut where
  compliance_flags : List (String × String)
  kb_article_used : Bool
  language_switch : Bool
  pii_disclosure_flag : Bool
  script_adherence : ℚ
deriving Repr, DecidableEq

/-- The pass/fail Bernoulli loop over the adjusted pass-rate table
(features.py line 235), drawing in table order. -/
def compFlagsLoop (r : Gen) : List (String × ℚ) → List (String × String) × Gen
  | [] => ([], r)
  | (k, v) :: rest =>
    let (u, r1) := r.random01
    let flag := if u < max 0 (min 1 v) then "pass" else "fail"
    let (tl, r2) := compFlagsLoop r1 rest
    ((k, flag) :: tl, r2)

/-- features.sample_compliance (features.py lines 222-243). -/
def sample_compliance (ctx : Context) (cfg : CVal) (r : Gen) : CompOut × Gen :=
  let passes0 := getQTab cfg ["compliance", "pass_rates"]
  let gd := getQ cfg ["compliance", "global_delta"] 0
  let cd := getQ cfg ["compliance", "channel_deltas", ctx.channel] 0
  let td := getQ cfg ["compliance", "team_deltas", ctx.team] 0
  let passes1 := passes0.map (fun kv => (kv.1, max 0 (min 0.999 (kv.2 + gd + cd + td))))
  let passes2 :=
    if ctx.outage_flag then
      dictSet passes1 "Empathy"
        (max 0 (tabGetQ passes1 "Empathy" 0.9 + getQ cfg ["compliance", "outage_empathy_penalty"] (-0.08)))
    else passes1
  let passes3 :=
    if ctx.agent_name = "Monika_Mueller" then
      passes2.map (fun kv => (kv.1, min 0.999 (kv.2 + getQ cfg ["compliance", "monika_pass_bonus"] 0.05)))
    else passes2
  let fl := compFlagsLoop r passes3
  let flags := fl.1
  let r1 := fl.2
  let (sv, r2) := r1.normal (getQ cfg ["compliance", "script_adherence_mean"] 86)
    (getQ cfg ["compliance", "script_adherence_sigma"] 6)
  let script := max 0 (min 100 sv)
  let (u1, r3) := r2.random01
  let (u2, r4) := r3.random01
  let (u3, r5) := r4.random01
  (⟨flags, decide (u1 < (0.5 : ℚ)), decide (u2 < (0.05 : ℚ)), decide (u3 < (0.02 : ℚ)),
    pyRound script 1⟩, r5)

/-- features.sample_silence_total_seconds (features.py lines 246-259). -/
def sample_silence_total_seconds (ctx : Context) (scenario : String) (nps_score : ℤ)
    (cfg : CVal) (r : Gen) : ℚ × Gen :=
  let base_mean := getQ cfg ["ops", "silence_total_seconds", "base_mean"] 12
  let base_sigma := getQ cfg ["ops", "silence_total_seconds", "base_sigma"] 6
  let agent_delta := getQ cfg ["ops", "silence_total_seconds", "agent_deltas", ctx.agent_name] 0
  let team_delta := getQ cfg ["ops", "silence_total_seconds", "team_deltas", ctx.team] 0
  let channel_lift := getQ cfg ["ops", "silence_total_seconds", "channel_lifts", ctx.channel] 0
  let scenario_lift := getQ cfg ["ops", "silence_total_seconds", "scenario_lifts", scenario] 0
  let low_thr := pyInt (getQ cfg ["ops", "silence_total_seconds", "nps", "low_threshold"] 7)
  let per_point := getQ cfg ["ops", "silence_total_seconds", "nps", "per_point_below"] 1.5
  let nps_penalty := ((max 0 (low_thr - nps_score) : ℤ) : ℚ) * per_point
  let mean := base_mean + agent_delta + team_delta + channel_lift + scenario_lift + nps_penalty
  let (v, r1) := trunc_normal r mean base_sigma 0
  (pyRound v 2, r1)

/-- The digit-array draw of generate_german_ani
(r.integers(0, 10, size=length)). -/
def drawDigits (r : Gen) : ℕ → List ℕ × Gen
  | 0 => ([], r)
  | n + 1 =>
    let (d, r1) := r.integers 0 10
    let (tl, r2) := drawDigits r1 n
    (d :: tl, r2)

/-- features.generate_german_ani (features.py lines 262-267): +49
followed by 9 to 12 pseudo-random decimal digits, drawn from the stream
keyed on (ani,) + key. -/
def generate_german_ani (m : DeterministicRNG) (key : List String) : String :=
  let r := seed_for m ([Prim.s "ani"] ++ key.map Prim.s)
  let (len, r1) := r.integers 9 13
  let ds := (drawDigits r1 len).1
  "+49" ++ String.mk (ds.map (fun d => Char.ofNat (48 + d)))

/-! ## Records (one JSON object per call) -/

inductive JVal where
  | s (v : String)
  | q (v : ℚ)
  | i (v : ℤ)
  | b (v : Bool)
  | obj (m : List (String × String))
  | null
deriving Repr, DecidableEq

abbrev Record := List (String × JVal)

/-- call[k] = v with Python dict semantics: replace the value in place
when the key exists (record keys are unique), append otherwise. -/
def recSet : Record → String → JVal → Record
  | [], k, v => [(k, v)]
  | kv :: rest, k, v => if kv.1 == k then (k, v) :: rest else kv :: recSet rest k v

/-- call.update(other): sequential assignment of every pair. -/
def updRec (r : Record) (kvs : List (String × JVal)) : Record :=
  kvs.foldl (fun acc kv => recSet acc kv.1 kv.2) r

/-- call.pop(k, None) for every listed key. -/
def popKeys (r : Record) (ks : List String) : Record :=
  r.filter (fun kv => !(ks.contains kv.1))

/-- call.get(k): first entry with the key. -/
def lookupRec : Record → String → Option JVal
  | [], _ => none
  | kv :: rest, k => if kv.1 == k then some kv.2 else lookupRec rest k

/-- The string content of a record field, empty when absent or non-string. -/
def strField (r : Record) (k : String) : String :=
  match lookupRec r k with
  | some (.s v) => v
  | _ => ""

/-! ## schema.py : CALL_SCHEMA and validation

jsonschema.validate enforces required-field presence, types, enums,
numeric bounds and regex patterns; the format annotations (uuid, date)
are not enforced by the default validator.  The checks below implement
CALL_SCHEMA (schema.py lines 8-85) field by field. -/

def AGENT_NAMES : List String :=
  ["Monika_Mueller", "Lukas_Schmidt", "Anna_Ziegler", "Peter_Keller",
   "Jasmin_Caggiano", "Heidi_Vogt", "Marco_Fischer", "Laura_Brunner",
   "Karin_Herzog", "Sven_Meier", "Nina_Weber", "Paul_Huber"]

def requiredCallFields : List String :=
  ["call_id", "date", "weekday", "time_of_day_bucket", "agent_name", "team", "agent_shift",
   "customer_segment", "channel", "language", "region", "device_type",
   "intent", "scenario",
   "AWT", "Hold_time", "Transfers_count", "Silence_ratio", "Interruptions_count",
   "FCR", "repeat_call_within_72h", "escalation", "complaint_category",
   "NPS_score", "sentiment_score",
   "self_service_potential", "automation_action_present",
   "compliance_flags", "script_adherence",
   "Silence_total_seconds"]

def isStrJ : JVal → Bool
  | .s _ => true
  | _ => false

def isBoolJ : JVal → Bool
  | .b _ => true
  | _ => false

def numValJ : JVal → Option ℚ
  | .q v => some v
  | .i v => some (v : ℚ)
  | _ => none

/-- JSON Schema type integer: a number with zero fractional part. -/
def isIntJ : JVal → Bool
  | .i _ => true
  | .q v => decide (v.den = 1)
  | _ => false

def numGeJ (v : JVal) (lo : ℚ) : Bool :=
  match numValJ v with
  | some q => decide (lo ≤ q)
  | none => false

def numRangeJ (v : JVal) (lo hi : ℚ) : Bool :=
  match numValJ v with
  | some q => decide (lo ≤ q ∧ q ≤ hi)
  | none => false

def intRangeJ (v : JVal) (lo hi : ℚ) : Bool :=
  isIntJ v && numRangeJ v lo hi

def intGeJ (v : JVal) (lo : ℚ) : Bool :=
  isIntJ v && numGeJ v lo

def enumStrJ (v : JVal) (l : List String) : Bool :=
  match v with
  | .s x => l.contains x
  | _ => false

def strOrNullJ : JVal → Bool
  | .s _ => true
  | .null => true
  | _ => false

def enumOrNullJ (v : JVal) (l : List String) : Bool :=
  match v with
  | .s x => l.contains x
  | .null => true
  | _ => false

def isAlphaCh (c : Char) : Bool :=
  (65 ≤ c.toNat && c.toNat ≤ 90) || (97 ≤ c.toNat && c.toNat ≤ 122)

def isDigitCh (c : Char) : Bool := 48 ≤ c.toNat && c.toNat ≤ 57

/-- The language pattern of the schema: two letters optionally followed
by a dash and two more letters. -/
def langPatOk (s : String) : Bool :=
  match s.data with
  | [a, b] => isAlphaCh a && isAlphaCh b
  | [a, b, d, e, f] => isAlphaCh a && isAlphaCh b && (d == Char.ofNat 45) && isAlphaCh e && isAlphaCh f
  | _ => false

/-- The ANI pattern of the schema: a plus sign, 49, then 9 to 12 decimal
digits. -/
def aniPatOk (s : String) : Bool :=
  match s.data with
  | p :: c4 :: c9 :: rest =>
    (p == Char.ofNat 43) && (c4 == Char.ofNat 52) && (c9 == Char.ofNat 57)
      && decide (9 ≤ rest.length) && decide (rest.length ≤ 12) && rest.all isDigitCh
  | _ => false

def complianceStages : List String := ["Greeting", "Empathy", "Summary", "Farewell"]

/-- The compliance_flags object schema: the four stages are required and
each listed stage must be pass or fail. -/
def compFlagsOk (v : JVal) : Bool :=
  match v with
  | .obj m =>
    complianceStages.all (fun k => m.any (fun kv => kv.1 == k))
      && m.all (fun kv =>
        if complianceStages.contains kv.1 then kv.2 == "pass" || kv.2 == "fail" else true)
  | _ => false

/-- The per-property constraints of CALL_SCHEMA; properties not listed in
the schema are unconstrained. -/
def checkProp (k : String) (v : JVal) : Bool :=
  match k with
  | "call_id" => isStrJ v
  | "date" => isStrJ v
  | "weekday" => enumStrJ v WEEKDAYS
  | "time_of_day_bucket" => enumStrJ v ["Night", "Morning", "Afternoon", "Evening"]
  | "agent_name" => enumStrJ v AGENT_NAMES
  | "team" => enumStrJ v ["Team A", "Team B", "Team C"]
  | "agent_shift" => enumStrJ v ["Early", "Mid", "Late"]
  | "customer_segment" => enumStrJ v ["Premium", "Standard"]
  | "channel" => enumStrJ v ["voice", "text"]
  | "language" => match v with | .s x => langPatOk x | _ => false
  | "region" => enumStrJ v ["ZH", "BE", "GE", "VD", "TI"]
  | "device_type" => enumStrJ v ["iOS", "Android", "Desktop"]
  | "intent" => isStrJ v
  | "scenario" => isStrJ v
  | "AWT" => numGeJ v 0
  | "Hold_time" => numGeJ v 0
  | "Transfers_count" => intRangeJ v 0 3
  | "Silence_ratio" => numRangeJ v 0 100
  | "Silence_total_seconds" => numGeJ v 0
  | "Interruptions_count" => intGeJ v 0
  | "FCR" => isBoolJ v
  | "repeat_call_within_72h" => isBoolJ v
  | "escalation" => enumStrJ v ["None", "Supervisor", "Backoffice", "IT Ticket"]
  | "complaint_category" => enumStrJ v ["WaitTime", "Rude", "WrongInfo", "TechnicalIssue", "Fees"]
  | "NPS_score" => intRangeJ v 0 10
  | "sentiment_score" => numRangeJ v (-1) 1
  | "product" => strOrNullJ v
  | "amount_bucket" => enumOrNullJ v ["<100", "100–1000", "1000–5000", ">5000"]
  | "self_service_potential" => enumStrJ v ["Low", "Medium", "High"]
  | "automation_action_present" => isBoolJ v
  | "automation_action_type" => enumOrNullJ v ["reset password", "check balance", "transfer status"]
  | "ANI" => match v with | .s x => aniPatOk x | _ => false
  | "compliance_flags" => compFlagsOk v
  | "kb_article_used" => isBoolJ v
  | "language_switch" => isBoolJ v
  | "pii_disclosure_flag" => isBoolJ v
  | "script_adherence" => numRangeJ v 0 100
  | _ => true

/-- schema.validate_against_schema: raises a structured error naming the
first missing required field or the first field violating its property
schema (modelling the jsonschema ValidationError). -/
def validate_against_schema (call : Record) : Except String Unit :=
  match requiredCallFields.find? (fun k => !(call.any (fun kv => kv.1 == k))) with
  | some k => .error ("required field missing: " ++ k)
  | none =>
    match call.find? (fun kv => !(checkProp kv.1 kv.2)) with
    | some kv => .error ("field fails schema: " ++ kv.1)
    | none => .ok ()

/-! ## io.py : persistence -/

/-- io.write_call_json (io.py lines 18-25): validate when requested, then
persist.  Persistence is modelled by handing the record back to the
caller; a validation failure raises before anything is written. -/
def write_call_json (call : Record) (validate : Bool) : Except String Record :=
  if validate then
    match validate_against_schema call with
    | .ok _ => .ok call
    | .error e => .error e
  else .ok call

/-! ## cli.py : per-call assembly and the generation run

The checked-in cli.py has corrupted indentation on a few lines (the body
of the else branch at lines 117-118 is dedented below its else, which
would not even tokenize, and the geo block at lines 76-81 is dedented
although it reads the per-call ctx, seg and call variables).  The
embedding places those statements at the per-call position their data
flow requires, which is also the order in which they appear. -/

abbrev CustKey := String × String × String

/-- One IdentityCache value: the memoized (ANI, region, language). -/
abbrev IdentVal := String × String × String

abbrev IdentityCache := List (CustKey × IdentVal)

def cacheLookup (c : IdentityCache) (k : CustKey) : Option IdentVal :=
  match c with
  | [] => none
  | kv :: rest => if kv.1 = k then some kv.2 else cacheLookup rest k

/-- scenario.split(" ")[0]. -/
def firstWord (s : String) : String := (s.splitOn " ").getD 0 ""

/-- The team lookup of cli.py line 29. -/
def teamFor (cfg : CVal) (agent : String) : String :=
  (cfgGet cfg ["agents", "members", agent, "team"] .missing).toStr "Team A"

def optStr : Option String → JVal
  | some s => .s s
  | none => .null

/-- The three fields suppressed for the text channel (cli.py line 96). -/
def suppressedFields : List String := ["Hold_time", "Silence_ratio", "Interruptions_count"]

/-- The tail of the per-call assembly, cli.py lines 100-132: resolution,
satisfaction, identity (with the IdentityCache), silence total, product,
automation and compliance.  It starts right after the channel-dependent
suppression point. -/
def assembleTail (m : DeterministicRNG) (cfg : CVal) (ctx : Context)
    (intent_str scenario : String) (op : OpsOut) (r1 : Gen) (cache : IdentityCache)
    (call : Record) : Record × IdentityCache :=
  let (res, r2) := sample_resolution ctx intent_str scenario cfg op.FCR r1
  let call := updRec call [("repeat_call_within_72h", .b res.repeat_call_within_72h),
    ("escalation", .s res.escalation), ("complaint_category", .s res.complaint_category)]
  let (nps, r3) := sample_nps ctx op.FCR op.AWT cfg r2
  let call := updRec call [("NPS_score", .i nps.1), ("sentiment_score", .q nps.2)]
  let cust_key : CustKey := (ctx.customer_segment, ctx.channel, firstWord scenario)
  let (call, cache) :=
    match cacheLookup cache cust_key with
    | some iv =>
      (updRec call [("ANI", .s iv.1), ("region", .s iv.2.1), ("language", .s iv.2.2)], cache)
    | none =>
      let ani := generate_german_ani m [ctx.customer_segment, ctx.channel, firstWord scenario]
      (updRec call [("ANI", .s ani)],
        cache ++ [(cust_key, (ani, ctx.region, ctx.language))])
  let (sil_total, r4) := sample_silence_total_seconds ctx scenario nps.1 cfg r3
  let call := updRec call [("Silence_total_seconds", .q sil_total)]
  let (prod, amount) := sample_products ctx cfg m
  let call := updRec call [("product", .s prod), ("amount_bucket", optStr amount)]
  let (auto, _r5) := sample_automation ctx cfg m r4
  let call := updRec call [("self_service_potential", .s auto.self_service_potential),
    ("automation_action_present", .b auto.automation_action_present),
    ("automation_action_type", optStr auto.automation_action_type)]
  let (comp, _r6) := sample_compliance ctx cfg _r5
  let call := updRec call [("compliance_flags", .obj comp.compliance_flags),
    ("kb_article_used", .b comp.kb_article_used),
    ("language_switch", .b comp.language_switch),
    ("pii_disclosure_flag", .b comp.pii_disclosure_flag),
    ("script_adherence", .q comp.script_adherence)]
  (call, cache)

structure CallOut where
  call : Record
  channel : String
  cache : IdentityCache
deriving Repr

/-- Everything the per-call loop body computes before the suppression
point: the derived generators, the progressively filled context, the
primary intent, the scenario, the channel, the ops metrics, the advanced
per-call generator and the partially assembled record
(cli.py lines 34-92). -/
structure PrefixOut where
  m : DeterministicRNG
  ctx : Context
  intent_str : String
  scenario : String
  channel : String
  op : OpsOut
  rcall : Gen
  call : Record

/-- cli.py lines 34-92: derive the per-call generator, fill the context
field by field in the documented order (segment, channel, geo, intent,
scenario), sample the operational metrics, and assemble the record so
far. -/
def buildCallPrefix (seed : ℕ) (cfg : CVal) (day : DayPlan)
    (agent_name team shift_name bucket : String) (i : ℕ) : PrefixOut :=
  let m := DeterministicRNG.init seed
  let call_rng := seed_for m
    [.s (dateStr day.date), .s agent_name, .s shift_name, .s bucket, .n i]
  let ctx0 : Context := {
    date := day.date, weekday := day.weekday, time_of_day_bucket := bucket,
    agent_name := agent_name, team := team, agent_shift := shift_name,
    customer_segment := "", channel := "", region := "", language := "", device_type := "",
    outage_flag := day.outage_flag, app_issue_flag := day.app_issue_flag,
    premium_wait_peak := day.premium_wait_peak,
    hour_lt_18 := bucket == "Morning" || bucket == "Afternoon", intent := "" }
  let (cid, r0) := uuid4_deterministic call_rng
  let call : Record := [("call_id", .s cid), ("date", .s (dateStr day.date)),
    ("weekday", .s day.weekday), ("time_of_day_bucket", .s bucket),
    ("agent_name", .s agent_name), ("team", .s team), ("agent_shift", .s shift_name)]
  let seg := sample_customer_segment ctx0 cfg m
  let ctx1 := { ctx0 with customer_segment := seg }
  let call := updRec call [("customer_segment", .s seg)]
  let ch := sample_channel ctx1 cfg m
  let ctx2 := { ctx1 with channel := ch }
  let call := updRec call [("channel", .s ch)]
  let geo := sample_geo_language_device ctx2 cfg m seg
  let ctx3 := { ctx2 with region := geo.1, language := geo.2.1, device_type := geo.2.2 }
  let call := updRec call
    [("region", .s geo.1), ("language", .s geo.2.1), ("device_type", .s geo.2.2)]
  let intent := sample_intent ctx3 cfg m
  let intent_str := intentResultStr intent
  let call := updRec call [("intent", .s intent_str)]
  let ctx4 := { ctx3 with intent := intent_str }
  let scenario := sample_scenario ctx4 intent_str cfg m
  let call := updRec call [("scenario", .s scenario)]
  let (op, r1) := sample_ops_metrics ctx4 cfg r0
  let call := updRec call [("AWT", .q op.AWT), ("Hold_time", .q op.Hold_time),
    ("Transfers_count", .i op.Transfers_count), ("Silence_ratio", .q op.Silence_ratio),
    ("Interruptions_count", .i op.Interruptions_count), ("FCR", .b op.FCR)]
  ⟨m, ctx4, intent_str, scenario, ch, op, r1, call⟩

/-- The per-call body of generate_dataset (cli.py lines 33-132), with the
channel-dependent suppression of cli.py lines 94-98 applied at its place
in the source. -/
def buildCall (seed : ℕ) (cfg : CVal) (day : DayPlan)
    (agent_name team shift_name bucket : String) (i : ℕ) (cache : IdentityCache) : CallOut :=
  let p := buildCallPrefix seed cfg day agent_name team shift_name bucket i
  let call := if p.channel = "text" then popKeys p.call suppressedFields else p.call
  let t := assembleTail p.m cfg p.ctx p.intent_str p.scenario p.op p.rcall cache call
  ⟨t.1, p.channel, t.2⟩

/-- The same assembly with the channel-dependent suppression omitted:
the fully assembled record, used to state what the suppression removes. -/
def buildCallFull (seed : ℕ) (cfg : CVal) (day : DayPlan)
    (agent_name team shift_name bucket : String) (i : ℕ) (cache : IdentityCache) : CallOut :=
  let p := buildCallPrefix seed cfg day agent_name team shift_name bucket i
  let t := assembleTail p.m cfg p.ctx p.intent_str p.scenario p.op p.rcall cache p.call
  ⟨t.1, p.channel, t.2⟩

/-- One slot of the generation loop: the day and branch labels plus the
call index, in the order the nested loops of cli.py visit them. -/
structure Slot where
  day : DayPlan
  team : String
  agent : String
  shift : String
  bucket : String
  idx : ℕ
deriving Repr, DecidableEq

/-- The slots generated for one day by the nested loops of cli.py
lines 25-33: agents, then shifts, then buckets, then call indices. -/
def daySlots (cfg : CVal) (m : DeterministicRNG) (day : DayPlan) : List Slot :=
  let vol := estimate_daily_volume day cfg m
  let by_agent := split_by_agent vol.estimated day.is_weekend cfg m
  by_agent.flatMap (fun ac =>
    let team := teamFor cfg ac.1
    let by_shift := split_by_shift ac.1 ac.2 cfg m
    by_shift.flatMap (fun sc =>
      let by_bucket := split_by_time_buckets sc.2 day.is_weekend cfg m
      by_bucket.flatMap (fun bc =>
        (List.range bc.2).map (fun i =>
          ⟨day, team, ac.1, sc.1, bc.1, i⟩))))

/-- The full slot sequence of one run. -/
def runSlots (cfg : CVal) (start_date end_date : Date) (seed : ℕ) : List Slot :=
  let m := DeterministicRNG.init seed
  (make_calendar start_date end_date cfg m).flatMap (daySlots cfg m)

/-- One iteration of the innermost loop (cli.py lines 33-136): build the
record, then validate and persist it; a validation failure propagates as
the uncaught exception it is in the source. -/
def callStep (seed : ℕ) (cfg : CVal) (validate : Bool)
    (st : IdentityCache × List Record) (slot : Slot) :
    Except String (IdentityCache × List Record) :=
  let out := buildCall seed cfg slot.day slot.agent slot.team slot.shift slot.bucket slot.idx st.1
  let validate_this := validate && !(out.channel == "text")
  match write_call_json out.call validate_this with
  | .ok r => .ok (out.cache, st.2 ++ [r])
  | .error e => .error e

/-- Exception-propagating fold over the call slots: the loop body of
generate_dataset with no handler around it. -/
def foldE {α β : Type} (f : β → α → Except String β) (init : β) :
    List α → Except String β
  | [] => .ok init
  | x :: xs =>
    match f init x with
    | .ok b => foldE f b xs
    | .error e => .error e

/-- cli.generate_dataset (cli.py lines 19-136): the nested loops flattened
into the slot list, threading the IdentityCache and collecting the
persisted records in order. -/
def generate_dataset (cfg : CVal) (start_date end_date : Date) (seed : ℕ)
    (validate : Bool) : Except String (List Record) :=
  match foldE (callStep seed cfg validate) ([], []) (runSlots cfg start_date end_date seed) with
  | .ok st => .ok st.2
  | .error e => .error e

/-- The derived customer key of a persisted record, recomputed from its
fields exactly as cli.py line 107 computes it from the sampled values. -/
def custKeyOf (r : Record) : CustKey :=
  (strField r "customer_segment", strField r "channel", firstWord (strField r "scenario"))

/-- The identity triple carried by a persisted record. -/
def identOf (r : Record) : IdentVal :=
  (strField r "ANI", strField r "region", strField r "language")

/-- The run invariant tying the IdentityCache to the emitted records:
the identity triple of every emitted record is exactly the cache entry of
its derived customer key, and every cached ANI is well formed. -/
def CacheInv (cache : IdentityCache) (recs : List Record) : Prop :=
  (∀ r ∈ recs, cacheLookup cache (custKeyOf r) = some (identOf r)
    ∧ aniPatOk (identOf r).1 = true) ∧
  (∀ e ∈ cache, aniPatOk e.2.1 = true)

/-! ## Concrete instances used by witnesses and counterexamples -/

/-- A minimal single-branch configuration: one weekday with two calls for
one agent, one shift, one bucket, and single-option weight tables. -/
def cfgW : CVal := .table [
  ("meta", .table [("volume_reduction_factor", .num 1)]),
  ("volume", .table [("base_weekday", .num 2)]),
  ("calendar", .table [("incidents", .table [("outages_count", .num 0),
    ("app_issue_after_outage_days", .num 0)])]),
  ("agents", .table [
    ("allocation", .table [("weekday", .table [("Anna_Ziegler", .num 1)])]),
    ("members", .table [("Anna_Ziegler", .table [("team", .str "Team A"),
      ("shifts", .table [("Early", .num 1)])])])]),
  ("buckets", .table [("weekday", .table [("Morning", .num 1)])]),
  ("segments", .table [("customer", .table [("Standard", .num 1)])]),
  ("channels", .table [("base", .table [("voice", .num 1)])]),
  ("geo", .table [("region", .table [("ZH", .num 1)]),
    ("language", .table [("DE", .num 1)])]),
  ("intents", .table [("base", .table [("Online-Banking", .num 1)])]),
  ("scenarios", .table [("base", .table [("S1 x", .num 1)])]),
  ("products", .table [("base", .table [("Giro", .num 1)])]),
  ("automation", .table [("self_service_potential", .table [("Low", .num 1)]),
    ("action_type", .table [("check balance", .num 1)])]),
  ("compliance", .table [("pass_rates", .table [("Greeting", .num 1)])]),
  ("devices", .table [("base", .table [("iOS", .num 1)])])]

/-- cfgW with a silence-ratio mean of 200 and zero sigma, so every
assembled record carries a Silence_ratio of 200 and fails validation. -/
def cfgC5 : CVal := .table [
  ("meta", .table [("volume_reduction_factor", .num 1)]),
  ("volume", .table [("base_weekday", .num 2)]),
  ("calendar", .table [("incidents", .table [("outages_count", .num 0),
    ("app_issue_after_outage_days", .num 0)])]),
  ("agents", .table [
    ("allocation", .table [("weekday", .table [("Anna_Ziegler", .num 1)])]),
    ("members", .table [("Anna_Ziegler", .table [("team", .str "Team A"),
      ("shifts", .table [("Early", .num 1)])])])]),
  ("buckets", .table [("weekday", .table [("Morning", .num 1)])]),
  ("segments", .table [("customer", .table [("Standard", .num 1)])]),
  ("channels", .table [("base", .table [("voice", .num 1)])]),
  ("geo", .table [("region", .table [("ZH", .num 1)]),
    ("language", .table [("DE", .num 1)])]),
  ("intents", .table [("base", .table [("Online-Banking", .num 1)])]),
  ("scenarios", .table [("base", .table [("S1 x", .num 1)])]),
  ("products", .table [("base", .table [("Giro", .num 1)])]),
  ("automation", .table [("self_service_potential", .table [("Low", .num 1)]),
    ("action_type", .table [("check balance", .num 1)])]),
  ("compliance", .table [("pass_rates", .table [("Greeting", .num 1)])]),
  ("devices", .table [("base", .table [("iOS", .num 1)])]),
  ("ops", .table [("silence_ratio", .table [("mean", .num 200), ("sigma", .num 0)])])]

/-- A configuration exercising the unclamped bounds: silence-ratio mean
200 with zero sigma, an NPS base table with the single key 12 and a
configured happy cap of 15. -/
def cfgC6 : CVal := .table [
  ("ops", .table [("silence_ratio", .table [("mean", .num 200), ("sigma", .num 0)])]),
  ("nps", .table [("base_weights", .table [("12", .num 1)]),
    ("corrections", .table [("happy_cap", .num 15)])])]

/-- A one-week configuration with one outage and two propagation days. -/
def cfgC7 : CVal := .table [
  ("calendar", .table [("incidents", .table [("outages_count", .num 1),
    ("app_issue_after_outage_days", .num 2)])])]

/-- cfgW with the text channel forced, so the per-call suppression path
runs. -/
def cfgT : CVal := .table [
  ("meta", .table [("volume_reduction_factor", .num 1)]),
  ("volume", .table [("base_weekday", .num 2)]),
  ("calendar", .table [("incidents", .table [("outages_count", .num 0),
    ("app_issue_after_outage_days", .num 0)])]),
  ("agents", .table [
    ("allocation", .table [("weekday", .table [("Anna_Ziegler", .num 1)])]),
    ("members", .table [("Anna_Ziegler", .table [("team", .str "Team A"),
      ("shifts", .table [("Early", .num 1)])])])]),
  ("buckets", .table [("weekday", .table [("Morning", .num 1)])]),
  ("segments", .table [("customer", .table [("Standard", .num 1)])]),
  ("channels", .table [("base", .table [("text", .num 1)])]),
  ("geo", .table [("region", .table [("ZH", .num 1)]),
    ("language", .table [("DE", .num 1)])]),
  ("intents", .table [("base", .table [("Online-Banking", .num 1)])]),
  ("scenarios", .table [("base", .table [("S1 x", .num 1)])]),
  ("products", .table [("base", .table [("Giro", .num 1)])]),
  ("automation", .table [("self_service_potential", .table [("Low", .num 1)]),
    ("action_type", .table [("check balance", .num 1)])]),
  ("compliance", .table [("pass_rates", .table [("Greeting", .num 1)])]),
  ("devices", .table [("base", .table [("iOS", .num 1)])])]

/-- A concrete per-call context. -/
def ctxW : Context := {
  date := 0, weekday := "Mon", time_of_day_bucket := "Morning",
  agent_name := "Anna_Ziegler", team := "Team A", agent_shift := "Early",
  customer_segment := "Standard", channel := "voice", region := "ZH", language := "DE",
  device_type := "iOS", outage_flag := false, app_issue_flag := false,
  premium_wait_peak := false, hour_lt_18 := true, intent := "Online-Banking" }

/-- A Monday day plan with no incidents. -/
def dayMon : DayPlan := ⟨0, "Mon", false, 1, false, false, false⟩

/-- A Tuesday day plan with no incidents. -/
def dayTue : DayPlan := ⟨1, "Tue", false, 1, false, false, false⟩

/-- The cfgW run records, recomputed from the generator. -/
def recsW : List Record := (generate_dataset cfgW 0 0 7 false).toOption.getD []

/-- The cfgT run records, recomputed from the generator. -/
def recsT : List Record := (generate_dataset cfgT 0 0 7 true).toOption.getD []

/-! ## Theorems -/

theorem seedFor_eq (m m2 : DeterministicRNG) (h : m.global_seed = m2.global_seed)
    (k : RKey) : seed_for m k = seed_for m2 k := by
  unfold seed_for
  rw [h]

/-- C1: for every global seed and every RandomKey, derivation is a pure
function of (seed, key): two manager states with the same global seed
(and arbitrarily advanced root generators, modelling any draws made in
between and any call order) derive the same generator, whose first N raw
draws therefore coincide for every N. -/
theorem c1_derive_deterministic (m m2 : DeterministicRNG) (key : RKey)
    (h : m.global_seed = m2.global_seed) (N : ℕ) :
    seed_for m key = seed_for m2 key ∧
      drawsN N (seed_for m key) = drawsN N (seed_for m2 key) := by
  have hg := seedFor_eq m m2 h key
  exact ⟨hg, by rw [hg]⟩

theorem c1_witness :
    seed_for ⟨5, defaultRng 5⟩ [.s "channel"] = seed_for ⟨5, ⟨77, 123⟩⟩ [.s "channel"] ∧
      drawsN 4 (seed_for ⟨5, defaultRng 5⟩ [.s "channel"])
        = drawsN 4 (seed_for ⟨5, ⟨77, 123⟩⟩ [.s "channel"]) :=
  c1_derive_deterministic ⟨5, defaultRng 5⟩ ⟨5, ⟨77, 123⟩⟩ [.s "channel"] rfl 4

theorem multinomialAux_fst_length (probs : List ℚ) : ∀ (g : Gen) (rem : ℕ),
    ((multinomialAux g rem probs).1).length = probs.length := by
  induction probs with
  | nil => intro g rem; rfl
  | cons p rest ih =>
    intro g rem
    cases rest with
    | nil => rfl
    | cons q rest2 =>
      rcases hb : g.binomial rem p with ⟨b, g1⟩
      rcases hrec : multinomialAux g1 (rem - b) (q :: rest2) with ⟨tl, g2⟩
      have htl : tl.length = (q :: rest2).length := by
        have := ih g1 (rem - b)
        rw [hrec] at this
        exact this
      simp only [multinomialAux, hb, hrec, List.length_cons, htl]

theorem multinomialAux_fst_sum (probs : List ℚ) : ∀ (g : Gen) (rem : ℕ), probs ≠ [] →
    ((multinomialAux g rem probs).1).sum = rem := by
  induction probs with
  | nil => intro g rem h; exact absurd rfl h
  | cons p rest ih =>
    intro g rem _
    cases rest with
    | nil => simp [multinomialAux]
    | cons q rest2 =>
      rcases hb : g.binomial rem p with ⟨b, g1⟩
      have hble : b ≤ rem := by
        have h1 : (g.binomial rem p).1 ≤ rem := by
          simp only [Gen.binomial, Gen.next]
          exact Nat.lt_succ_iff.mp (Nat.mod_lt _ (Nat.succ_pos rem))
        rw [hb] at h1
        exact h1
      rcases hrec : multinomialAux g1 (rem - b) (q :: rest2) with ⟨tl, g2⟩
      have htl : tl.sum = rem - b := by
        have := ih g1 (rem - b) (by simp)
        rw [hrec] at this
        exact this
      simp only [multinomialAux, hb, hrec, List.sum_cons, htl]
      omega

theorem multinomial_split_spec (total : ℕ) (ratios : List (String × ℚ)) (g : Gen)
    (hne : ratios ≠ []) :
    (multinomial_split total ratios g).map Prod.fst = ratios.map Prod.fst ∧
    ((multinomial_split total ratios g).map Prod.snd).sum = total := by
  have hlen : ∀ draws : List ℕ, draws.length = ratios.length →
      ((ratios.map Prod.fst).zip draws).map Prod.fst = ratios.map Prod.fst ∧
      (((ratios.map Prod.fst).zip draws).map Prod.snd) = draws := by
    intro draws hd
    constructor
    · exact List.map_fst_zip _ _ (by simp [hd])
    · exact List.map_snd_zip _ _ (by simp [hd])
  unfold multinomial_split
  by_cases ht : 0 < total
  · simp only [if_pos ht]
    set probs2 := if (ratios.map Prod.snd).sum ≤ 0 then
        (ratios.map Prod.snd).map (fun _ => (1 : ℚ) / ((ratios.map Prod.snd).length : ℚ))
      else ratios.map Prod.snd with hp2
    have hp2len : probs2.length = ratios.length := by
      rw [hp2]
      by_cases h0 : (ratios.map Prod.snd).sum ≤ 0 <;> simp [h0]
    have hp3len : (probs2.map (fun p => p / probs2.sum)).length = ratios.length := by
      simp [hp2len]
    have hp3ne : probs2.map (fun p => p / probs2.sum) ≠ [] := by
      intro hcon
      have := congrArg List.length hcon
      simp [hp3len] at this
      exact hne this
    have hdlen : ((g.multinomial total (probs2.map (fun p => p / probs2.sum))).1).length
        = ratios.length := by
      rw [Gen.multinomial, multinomialAux_fst_length]
      exact hp3len
    have hz := hlen _ hdlen
    refine ⟨hz.1, ?_⟩
    rw [hz.2, Gen.multinomial, multinomialAux_fst_sum _ _ _ hp3ne]
  · simp only [if_neg ht]
    have htz : total = 0 := by omega
    set probs2 := if (ratios.map Prod.snd).sum ≤ 0 then
        (ratios.map Prod.snd).map (fun _ => (1 : ℚ) / ((ratios.map Prod.snd).length : ℚ))
      else ratios.map Prod.snd with hp2
    have hp2len : probs2.length = ratios.length := by
      rw [hp2]
      by_cases h0 : (ratios.map Prod.snd).sum ≤ 0 <;> simp [h0]
    have hdlen : (probs2.map (fun _ => (0 : ℕ))).length = ratios.length := by
      simp [hp2len]
    have hz := hlen _ hdlen
    refine ⟨hz.1, ?_⟩
    rw [hz.2, htz]
    simp

/-- C2: multinomial_split is an exact integer partition: for a
non-negative total and a non-empty ratios table (a WeightTable, so with
non-negative weights), the result ranges over exactly the keys of the
table and its values sum exactly to the total; consequently each level of
the allocation cascade (day to agents, agent to shifts, shift to buckets)
conserves the parent count exactly. -/
theorem c2_multinomial_split_conservation :
    (∀ (total : ℕ) (ratios : List (String × ℚ)) (g : Gen),
      ratios ≠ [] → (∀ kv ∈ ratios, 0 ≤ kv.2) →
      (multinomial_split total ratios g).map Prod.fst = ratios.map Prod.fst ∧
      ((multinomial_split total ratios g).map Prod.snd).sum = total) ∧
    (∀ (v : ℕ) (w : Bool) (cfg : CVal) (m : DeterministicRNG),
      getQTab cfg (if w then ["agents", "allocation", "weekend"]
        else ["agents", "allocation", "weekday"]) ≠ [] →
      ((split_by_agent v w cfg m).map Prod.snd).sum = v) ∧
    (∀ (a : String) (v : ℕ) (cfg : CVal) (m : DeterministicRNG),
      getQTab cfg ["agents", "members", a, "shifts"] ≠ [] →
      ((split_by_shift a v cfg m).map Prod.snd).sum = v) ∧
    (∀ (v : ℕ) (w : Bool) (cfg : CVal) (m : DeterministicRNG),
      getQTab cfg (if w then ["buckets", "weekend"] else ["buckets", "weekday"]) ≠ [] →
      ((split_by_time_buckets v w cfg m).map Prod.snd).sum = v) := by
  refine ⟨fun total ratios g hne _ => multinomial_split_spec total ratios g hne,
    fun v w cfg m hne => ?_, fun a v cfg m hne => ?_, fun v w cfg m hne => ?_⟩
  · exact (multinomial_split_spec v _ _ hne).2
  · exact (multinomial_split_spec v _ _ hne).2
  · exact (multinomial_split_spec v _ _ hne).2

theorem c2_witness :
    (multinomial_split 5 [("a", (1 : ℚ)), ("b", (3 : ℚ))] (defaultRng 0)).map Prod.fst
      = ["a", "b"] ∧
    ((multinomial_split 5 [("a", (1 : ℚ)), ("b", (3 : ℚ))] (defaultRng 0)).map Prod.snd).sum
      = 5 ∧
    ((split_by_agent 7 false cfgW (DeterministicRNG.init 42)).map Prod.snd).sum = 7 := by
  have h := c2_multinomial_split_conservation.1 5 [("a", (1 : ℚ)), ("b", (3 : ℚ))]
    (defaultRng 0) (by decide) (by decide)
  refine ⟨h.1, h.2, ?_⟩
  exact c2_multinomial_split_conservation.2.1 7 false cfgW (DeterministicRNG.init 42) (by decide)

theorem sum_map_div (l : List ℚ) (c : ℚ) : (l.map (fun x => x / c)).sum = l.sum / c := by
  induction l with
  | nil => simp
  | cons x xs ih => simp [ih, div_add_div_same]

theorem sum_map_constQ {α : Type} (l : List α) (c : ℚ) :
    (l.map (fun _ => c)).sum = (l.length : ℚ) * c := by
  induction l with
  | nil => simp
  | cons x xs ih =>
    simp only [List.map_cons, List.sum_cons, ih, List.length_cons]
    push_cast
    ring

theorem wNormalize_spec (w : List (String × ℚ)) (hne : w ≠ []) :
    (∀ kv ∈ wNormalize w, 0 ≤ kv.2) ∧
    |((wNormalize w).map Prod.snd).sum - 1| < 1 / 1000000000 ∧
    ((∀ kv ∈ w, kv.2 ≤ 0) → ∀ kv ∈ wNormalize w, kv.2 = 1 / (w.length : ℚ)) := by
  have hlq : (0 : ℚ) < (w.length : ℚ) := by
    have : w.length ≠ 0 := by simpa using hne
    exact_mod_cast Nat.pos_of_ne_zero this
  unfold wNormalize
  by_cases ht : (w.map (fun kv => max 0 kv.2)).sum ≤ 0
  · simp only [if_pos ht]
    have hn : (if w.length = 0 then 1 else w.length) = w.length := by
      have : w.length ≠ 0 := by simpa using hne
      simp [this]
    rw [hn]
    refine ⟨?_, ?_, ?_⟩
    · intro kv hkv
      simp only [List.mem_map] at hkv
      obtain ⟨a, _, rfl⟩ := hkv
      positivity
    · rw [List.map_map]
      have : ((Prod.snd ∘ fun kv : String × ℚ => (kv.1, (1 : ℚ) / (w.length : ℚ))))
          = fun _ => (1 : ℚ) / (w.length : ℚ) := rfl
      rw [this, sum_map_constQ]
      rw [mul_one_div, div_self (ne_of_gt hlq)]
      norm_num
    · intro _ kv hkv
      simp only [List.mem_map] at hkv
      obtain ⟨a, _, rfl⟩ := hkv
      rfl
  · push_neg at ht
    simp only [if_neg (not_le.mpr ht)]
    refine ⟨?_, ?_, ?_⟩
    · intro kv hkv
      simp only [List.mem_map] at hkv
      obtain ⟨a, _, rfl⟩ := hkv
      have h0 : (0 : ℚ) ≤ max 0 a.2 := le_max_left 0 a.2
      positivity
    · rw [List.map_map]
      have hcomp : ((Prod.snd ∘ fun kv : String × ℚ => (kv.1, max 0 kv.2 / (w.map (fun kv => max 0 kv.2)).sum)))
          = fun kv : String × ℚ => max 0 kv.2 / (w.map (fun kv => max 0 kv.2)).sum := rfl
      rw [hcomp]
      have : (w.map fun kv : String × ℚ => max 0 kv.2 / (w.map (fun kv => max 0 kv.2)).sum)
          = (w.map (fun kv : String × ℚ => max 0 kv.2)).map
              (fun x => x / (w.map (fun kv => max 0 kv.2)).sum) := by
        rw [List.map_map]
        rfl
      rw [this, sum_map_div, div_self (ne_of_gt ht)]
      norm_num
    · intro hall kv hkv
      exfalso
      have hz : (w.map (fun kv => max 0 kv.2)).sum = 0 := by
        apply List.sum_eq_zero
        intro x hx
        simp only [List.mem_map] at hx
        obtain ⟨a, ha, rfl⟩ := hx
        exact max_eq_left (hall a ha)
      rw [hz] at ht
      exact lt_irrefl 0 ht

/-- C3 counterexample: the empty input table resolves to the empty table,
whose weight sum is 0, not within 1e-9 of 1 — refuting the universal
sum-to-one clause of the claim at the empty table the claim itself covers. -/
theorem c3_counterexample :
    wNormalize [] = [] ∧ rngNormalize [] = [] ∧
    ¬ |(((wNormalize ([] : List (String × ℚ))).map Prod.snd).sum) - 1| < 1 / 1000000000 := by
  refine ⟨rfl, rfl, ?_⟩
  simp [wNormalize]
  norm_num

/-- C3 amended: for every NON-EMPTY input weight table both normalizers
produce only non-negative weights summing to 1 (well within 1e-9), and an
all-zero (or all-non-positive) non-empty table resolves to the uniform
distribution over its keys; the empty table instead resolves to the empty
table, whose weight sum is 0.  DeterministicRNG.normalize and
weights._normalize are the same function. -/
theorem c3_normalization_amended :
    (∀ w : List (String × ℚ), w ≠ [] →
      (∀ kv ∈ wNormalize w, 0 ≤ kv.2) ∧
      |((wNormalize w).map Prod.snd).sum - 1| < 1 / 1000000000 ∧
      ((∀ kv ∈ w, kv.2 ≤ 0) → ∀ kv ∈ wNormalize w, kv.2 = 1 / (w.length : ℚ))) ∧
    (∀ w, rngNormalize w = wNormalize w) ∧
    wNormalize [] = [] := by
  exact ⟨fun w hne => wNormalize_spec w hne, fun w => rfl, rfl⟩

theorem c3_witness :
    (∀ kv ∈ wNormalize [("x", (3 : ℚ)), ("y", -2), ("z", 1)], 0 ≤ kv.2) ∧
    |((wNormalize [("x", (3 : ℚ)), ("y", -2), ("z", 1)]).map Prod.snd).sum - 1|
      < 1 / 1000000000 := by
  have h := c3_normalization_amended.1 [("x", (3 : ℚ)), ("y", -2), ("z", 1)] (by decide)
  exact ⟨h.1, h.2.1⟩

/-- C4 counterexample: two distinct branches (the same agent on two
different days, and two different days with equal daily volumes) derive
their split generators from the same RandomKey, because none of the split
keys incorporates the date: the per-branch splits coincide. -/
theorem c4_counterexample :
    dayMon.date ≠ dayTue.date ∧
    shiftSplitForBranch cfgW (DeterministicRNG.init 42) dayMon "Anna_Ziegler" 7
      = shiftSplitForBranch cfgW (DeterministicRNG.init 42) dayTue "Anna_Ziegler" 7 ∧
    agentSplitForBranch cfgW (DeterministicRNG.init 42) dayMon 10
      = agentSplitForBranch cfgW (DeterministicRNG.init 42) dayTue 10 :=
  ⟨by decide, rfl, rfl⟩

/-- C4 amended: each volume split derives its generator from a RandomKey
containing only the split name and (is_weekend, daily_volume) for the
agent split, (agent) for the shift split, and (is_weekend, shift_block)
for the bucket split — never the date.  Each split is therefore
reproducible as a pure function of the global seed and those components
(independent of the root generator state), and keys of different split
kinds never collide; but branches that differ only in components outside
the key (such as the date) share a key and a stream. -/
theorem c4_split_keys_amended :
    (∀ (m m2 : DeterministicRNG) (cfg : CVal) (v : ℕ) (w : Bool),
      m.global_seed = m2.global_seed →
      split_by_agent v w cfg m = split_by_agent v w cfg m2) ∧
    (∀ (m m2 : DeterministicRNG) (cfg : CVal) (a : String) (v : ℕ),
      m.global_seed = m2.global_seed →
      split_by_shift a v cfg m = split_by_shift a v cfg m2) ∧
    (∀ (m m2 : DeterministicRNG) (cfg : CVal) (v : ℕ) (w : Bool),
      m.global_seed = m2.global_seed →
      split_by_time_buckets v w cfg m = split_by_time_buckets v w cfg m2) ∧
    (∀ w v a, splitByAgentKey w v ≠ splitByShiftKey a) ∧
    (∀ a w v, splitByShiftKey a ≠ splitByTimeBucketsKey w v) ∧
    (∀ w v w2 v2, splitByAgentKey w v ≠ splitByTimeBucketsKey w2 v2) := by
  refine ⟨?_, ?_, ?_, ?_, ?_, ?_⟩
  · intro m m2 cfg v w h
    unfold split_by_agent
    rw [seedFor_eq m m2 h]
  · intro m m2 cfg a v h
    unfold split_by_shift
    rw [seedFor_eq m m2 h]
  · intro m m2 cfg v w h
    unfold split_by_time_buckets
    rw [seedFor_eq m m2 h]
  · intro w v a h
    simp [splitByAgentKey, splitByShiftKey] at h
  · intro a w v h
    simp [splitByShiftKey, splitByTimeBucketsKey] at h
  · intro w v w2 v2 h
    simp [splitByAgentKey, splitByTimeBucketsKey] at h

theorem c4_witness :
    split_by_agent 10 false cfgW ⟨42, defaultRng 42⟩
      = split_by_agent 10 false cfgW ⟨42, ⟨9, 9⟩⟩ ∧
    splitByAgentKey false 10 ≠ splitByShiftKey "Anna_Ziegler" :=
  ⟨c4_split_keys_amended.1 ⟨42, defaultRng 42⟩ ⟨42, ⟨9, 9⟩⟩ cfgW 10 false rfl,
   c4_split_keys_amended.2.2.2.1 false 10 "Anna_Ziegler"⟩

theorem mem_appIssueDays (outs : List Date) (k : ℕ) (e d : Date) :
    d ∈ appIssueDays outs k e ↔
      ∃ o ∈ outs, ∃ j : ℕ, 1 ≤ j ∧ j ≤ k ∧ d = o + j ∧ d ≤ e := by
  unfold appIssueDays
  constructor
  · intro hd
    rw [List.mem_flatten] at hd
    obtain ⟨l, hl, hdl⟩ := hd
    rw [List.mem_map] at hl
    obtain ⟨o, ho, rfl⟩ := hl
    rw [List.mem_filterMap] at hdl
    obtain ⟨j, hj, hif⟩ := hdl
    rw [List.mem_range] at hj
    by_cases hle : o + (j + 1) ≤ e
    · rw [if_pos hle] at hif
      obtain rfl : o + (j + 1) = d := Option.some.inj hif
      exact ⟨o, ho, j + 1, by omega, by omega, rfl, hle⟩
    · rw [if_neg hle] at hif
      exact absurd hif (by simp)
  · rintro ⟨o, ho, j, hj1, hjk, rfl, hde⟩
    rw [List.mem_flatten]
    refine ⟨_, List.mem_map_of_mem _ ho, ?_⟩
    rw [List.mem_filterMap]
    refine ⟨j - 1, ?_, ?_⟩
    · rw [List.mem_range]
      omega
    · have hj : j - 1 + 1 = j := by omega
      rw [hj, if_pos hde]

/-- C7: a date in the generated calendar has app_issue_flag exactly when
it lies within 1..k days after some selected outage date and within the
range bound, for k the configured app_issue_after_outage_days; the flag
may come from any of several outages. -/
theorem c7_incident_propagation (s e : Date) (cfg : CVal) (m : DeterministicRNG)
    (dp : DayPlan) (hdp : dp ∈ make_calendar s e cfg m) :
    dp.app_issue_flag = true ↔
      ∃ o ∈ select_outage_days s e (cfgOutagesCount cfg) m,
        ∃ j : ℕ, 1 ≤ j ∧ j ≤ (cfgAppAfterDays cfg).toNat ∧ dp.date = o + j ∧ dp.date ≤ e := by
  unfold make_calendar at hdp
  simp only [List.mem_map] at hdp
  obtain ⟨d, _, rfl⟩ := hdp
  dsimp only
  rw [List.elem_iff]
  exact mem_appIssueDays _ _ _ _

theorem c7_witness :
    ((make_calendar 0 6 cfgC7 (DeterministicRNG.init 42)).getD 4 dayMon).app_issue_flag
      = true := by
  have hdp : (make_calendar 0 6 cfgC7 (DeterministicRNG.init 42)).getD 4 dayMon
      ∈ make_calendar 0 6 cfgC7 (DeterministicRNG.init 42) := by
    with_unfolding_all decide
  refine (c7_incident_propagation 0 6 cfgC7 (DeterministicRNG.init 42) _ hdp).mpr ?_
  refine ⟨3, by with_unfolding_all decide, 1, by decide, ?_, ?_, ?_⟩
  · with_unfolding_all decide
  · with_unfolding_all decide
  · with_unfolding_all decide

theorem roundQ_mono {x y : ℚ} (h : x ≤ y) : round x ≤ round y := by
  rw [round_eq, round_eq]
  exact Int.floor_le_floor (by linarith)

theorem intQ_le_pyRound (q : ℚ) (nd : ℕ) (z : ℤ) (h : (z : ℚ) ≤ q) :
    (z : ℚ) ≤ pyRound q nd := by
  unfold pyRound
  rw [le_div_iff₀ (by positivity)]
  have hcast : ((z : ℚ) * (10 : ℚ) ^ nd) = ((z * 10 ^ nd : ℤ) : ℚ) := by
    push_cast
    ring
  have hm : round ((z : ℚ) * (10 : ℚ) ^ nd) ≤ round (q * (10 : ℚ) ^ nd) :=
    roundQ_mono (mul_le_mul_of_nonneg_right h (by positivity))
  rw [hcast, round_intCast] at hm
  calc (z : ℚ) * (10 : ℚ) ^ nd = ((z * 10 ^ nd : ℤ) : ℚ) := hcast
    _ ≤ ((round (q * (10 : ℚ) ^ nd) : ℤ) : ℚ) := by exact_mod_cast hm

theorem pyRound_le_intQ (q : ℚ) (nd : ℕ) (z : ℤ) (h : q ≤ (z : ℚ)) :
    pyRound q nd ≤ (z : ℚ) := by
  unfold pyRound
  rw [div_le_iff₀ (by positivity)]
  have hcast : ((z : ℚ) * (10 : ℚ) ^ nd) = ((z * 10 ^ nd : ℤ) : ℚ) := by
    push_cast
    ring
  have hm : round (q * (10 : ℚ) ^ nd) ≤ round ((z : ℚ) * (10 : ℚ) ^ nd) :=
    roundQ_mono (mul_le_mul_of_nonneg_right h (by positivity))
  rw [hcast, round_intCast] at hm
  calc ((round (q * (10 : ℚ) ^ nd) : ℤ) : ℚ) ≤ ((z * 10 ^ nd : ℤ) : ℚ) := by exact_mod_cast hm
    _ = (z : ℚ) * (10 : ℚ) ^ nd := hcast.symm

theorem pyRound_nonneg (q : ℚ) (nd : ℕ) (h : 0 ≤ q) : 0 ≤ pyRound q nd := by
  have h0 := intQ_le_pyRound q nd 0 (by exact_mod_cast h)
  exact_mod_cast h0

theorem neg_one_le_pyRound (q : ℚ) (nd : ℕ) (h : -1 ≤ q) : -1 ≤ pyRound q nd := by
  have h0 := intQ_le_pyRound q nd (-1) (by exact_mod_cast h)
  exact_mod_cast h0

theorem pyRound_le_one (q : ℚ) (nd : ℕ) (h : q ≤ 1) : pyRound q nd ≤ 1 := by
  have h0 := pyRound_le_intQ q nd 1 (by exact_mod_cast h)
  exact_mod_cast h0

theorem pyRound_le_hundred (q : ℚ) (nd : ℕ) (h : q ≤ 100) : pyRound q nd ≤ 100 := by
  have h0 := pyRound_le_intQ q nd 100 (by exact_mod_cast h)
  exact_mod_cast h0

/-- C6 counterexample: with a configuration setting the silence-ratio
mean to 200 (zero sigma) and an NPS base table with key 12 under a happy
cap of 15, the sampled Silence_ratio is 200 > 100 and the sampled
NPS_score is 12 > 10 — refuting the for-every-configuration claim. -/
theorem c6_counterexample :
    ¬ ((sample_ops_metrics ctxW cfgC6 (defaultRng 0)).1).Silence_ratio ≤ 100 ∧
    ¬ ((sample_nps ctxW true 100 cfgC6 (defaultRng 0)).1).1 ≤ 10 := by
  constructor <;> with_unfolding_all decide

/-- C6 amended: for every configuration and seed, sentiment_score is
clamped into [-1, 1] and script_adherence into [0, 100]; NPS_score is an
integer clamped into [0, max 0 happy_cap] (hence into [0, 10] under the
default cap of 10); Silence_ratio is only floored at 0 and has no upper
clamp at 100 (the schema bound can be exceeded under configurations whose
silence-ratio mean is large). -/
theorem c6_bounded_fields_amended :
    (∀ (ctx : Context) (cfg : CVal) (r : Gen),
      0 ≤ ((sample_ops_metrics ctx cfg r).1).Silence_ratio) ∧
    (∀ (ctx : Context) (fcr : Bool) (awt : ℚ) (cfg : CVal) (r : Gen),
      0 ≤ ((sample_nps ctx fcr awt cfg r).1).1 ∧
      ((sample_nps ctx fcr awt cfg r).1).1 ≤ max 0 (npsHappyCap cfg) ∧
      (-1 : ℚ) ≤ ((sample_nps ctx fcr awt cfg r).1).2 ∧
      ((sample_nps ctx fcr awt cfg r).1).2 ≤ 1) ∧
    (∀ (ctx : Context) (cfg : CVal) (r : Gen),
      0 ≤ ((sample_compliance ctx cfg r).1).script_adherence ∧
      ((sample_compliance ctx cfg r).1).script_adherence ≤ 100) := by
  refine ⟨fun ctx cfg r => ?_, fun ctx fcr awt cfg r => ?_, fun ctx cfg r => ?_⟩
  · dsimp only [sample_ops_metrics, trunc_normal, Gen.normal, Gen.stdnormal, Gen.next,
      Gen.random01, Gen.choiceP]
    exact pyRound_nonneg _ 2 (le_max_left _ _)
  · dsimp only [sample_nps, Gen.normal, Gen.stdnormal, Gen.next, Gen.random01, Gen.choiceP]
    refine ⟨le_max_left _ _, max_le_max (le_refl 0) (min_le_left _ _), ?_, ?_⟩
    · exact neg_one_le_pyRound _ 3 (le_max_left _ _)
    · exact pyRound_le_one _ 3 (max_le (by norm_num) (min_le_left _ _))
  · dsimp only [sample_compliance, Gen.normal, Gen.stdnormal, Gen.next, Gen.random01]
    constructor
    · exact pyRound_nonneg _ 1 (le_max_left _ _)
    · exact pyRound_le_hundred _ 1 (max_le (by norm_num) (min_le_left _ _))

theorem c6_witness :
    0 ≤ ((sample_ops_metrics ctxW cfgW (defaultRng 3)).1).Silence_ratio ∧
    0 ≤ ((sample_nps ctxW true 90 cfgW (defaultRng 3)).1).1 ∧
    ((sample_nps ctxW true 90 cfgW (defaultRng 3)).1).1 ≤ max 0 (npsHappyCap cfgW) :=
  ⟨c6_bounded_fields_amended.1 ctxW cfgW (defaultRng 3),
   (c6_bounded_fields_amended.2.1 ctxW true 90 cfgW (defaultRng 3)).1,
   (c6_bounded_fields_amended.2.1 ctxW true 90 cfgW (defaultRng 3)).2.1⟩

set_option maxRecDepth 400000 in
/-- C5 counterexample: under a configuration whose assembled records fail
schema validation on Silence_ratio, the validated run aborts with the
structured error on the FIRST record and persists nothing, although the
same run without validation would assemble two records — the failure is
per-run, not per-record. -/
theorem c5_counterexample :
    generate_dataset cfgC5 0 0 7 true = .error "field fails schema: Silence_ratio" ∧
    (generate_dataset cfgC5 0 0 7 false).map List.length = .ok 2 := by
  refine ⟨?_, ?_⟩
  · with_unfolding_all rfl
  · with_unfolding_all rfl

/-- C5 amended: a record failing schema validation aborts persistence of
that record with a structured error naming the failing field, and —
because generate_dataset installs no per-record handler — the error
terminates the whole run: no slot after the failing one is processed. -/
theorem c5_validation_abort_amended (seed : ℕ) (cfg : CVal) (v : Bool)
    (st : IdentityCache × List Record) (slot : Slot) (rest : List Slot) (e : String)
    (h : callStep seed cfg v st slot = .error e) :
    foldE (callStep seed cfg v) st (slot :: rest) = .error e := by
  simp [foldE, h]

theorem lookupRec_recSet (r : Record) (k : String) (v : JVal) (k2 : String) :
    lookupRec (recSet r k v) k2 = if k2 = k then some v else lookupRec r k2 := by
  induction r with
  | nil =>
    by_cases h : k2 = k
    · simp [recSet, lookupRec, h]
    · have h2 : ¬ k = k2 := Ne.symm h
      simp [recSet, lookupRec, h, h2]
  | cons kv rest ih =>
    by_cases hk : kv.1 = k
    · by_cases h2 : k2 = k
      · simp [recSet, lookupRec, hk, h2]
      · have h3 : ¬ k = k2 := Ne.symm h2
        have h4 : ¬ kv.1 = k2 := by rw [hk]; exact h3
        simp [recSet, lookupRec, hk, h2, h3, h4]
    · by_cases h2 : k2 = kv.1
      · have h3 : ¬ k2 = k := by rw [h2]; exact hk
        have h4 : kv.1 = k2 := h2.symm
        simp [recSet, lookupRec, hk, h3, h4]
      · have h4 : ¬ kv.1 = k2 := fun hh => h2 hh.symm
        simp [recSet, lookupRec, hk, h4, ih]

theorem popKeys_nil (ks : List String) : popKeys [] ks = [] := rfl

theorem popKeys_cons_kept (kv : String × JVal) (rest : Record) (ks : List String)
    (hp : ks.contains kv.1 = false) :
    popKeys (kv :: rest) ks = kv :: popKeys rest ks := by
  simp only [popKeys, List.filter_cons, hp, Bool.not_false, if_true]

theorem popKeys_cons_dropped (kv : String × JVal) (rest : Record) (ks : List String)
    (hp : ks.contains kv.1 = true) :
    popKeys (kv :: rest) ks = popKeys rest ks := by
  simp only [popKeys, List.filter_cons, hp, Bool.not_true, Bool.false_eq_true, if_false]

theorem lookupRec_popKeys (r : Record) (ks : List String) (k : String) :
    lookupRec (popKeys r ks) k
      = if ks.contains k = true then none else lookupRec r k := by
  induction r with
  | nil =>
    rw [popKeys_nil]
    cases ks.contains k <;> simp [lookupRec]
  | cons kv rest ih =>
    cases hp : ks.contains kv.1 with
    | false =>
      rw [popKeys_cons_kept kv rest ks hp]
      by_cases he : kv.1 = k
      · have hk : ks.contains k = false := he ▸ hp
        have hbe : (kv.1 == k) = true := by simp [he]
        rw [hk]
        simp only [Bool.false_eq_true, if_false, lookupRec, hbe, if_true]
      · have hbe : (kv.1 == k) = false := by simp [he]
        simp only [lookupRec, hbe, Bool.false_eq_true, if_false]
        rw [ih]
    | true =>
      rw [popKeys_cons_dropped kv rest ks hp, ih]
      cases hk : ks.contains k with
      | true => simp
      | false =>
        have hne : (kv.1 == k) = false := by
          refine beq_eq_false_iff_ne.mpr ?_
          intro he
          have h1 := he ▸ hp
          rw [hk] at h1
          exact absurd h1 (by decide)
        simp [lookupRec, hne]

theorem popKeys_recSet (r : Record) (ks : List String) (k : String) (v : JVal)
    (hk : ks.contains k = false) :
    popKeys (recSet r k v) ks = recSet (popKeys r ks) k v := by
  induction r with
  | nil =>
    show popKeys [(k, v)] ks = recSet [] k v
    rw [popKeys_cons_kept _ _ _ hk]
    rfl
  | cons kv rest ih =>
    by_cases hbk : kv.1 = k
    · have h1 : (kv.1 == k) = true := by simp [hbk]
      have h2 : ks.contains kv.1 = false := by rw [hbk]; exact hk
      show popKeys (if (kv.1 == k) = true then (k, v) :: rest else kv :: recSet rest k v) ks = _
      rw [if_pos h1, popKeys_cons_kept _ _ _ hk, popKeys_cons_kept _ _ _ h2]
      show _ = if (kv.1 == k) = true then (k, v) :: popKeys rest ks else _
      rw [if_pos h1]
    · have h1 : (kv.1 == k) = false := by simp [hbk]
      show popKeys (if (kv.1 == k) = true then (k, v) :: rest else kv :: recSet rest k v) ks = _
      rw [if_neg (by simp [h1])]
      cases hp : ks.contains kv.1 with
      | false =>
        rw [popKeys_cons_kept _ _ _ hp, popKeys_cons_kept _ _ _ hp]
        show kv :: popKeys (recSet rest k v) ks
          = if (kv.1 == k) = true then (k, v) :: popKeys rest ks else kv :: recSet (popKeys rest ks) k v
        rw [if_neg (by simp [h1]), ih]
      | true =>
        rw [popKeys_cons_dropped _ _ _ hp, popKeys_cons_dropped _ _ _ hp, ih]

theorem popKeys_updRec (r : Record) (ks : List String) (kvs : List (String × JVal))
    (h : ∀ s ∈ kvs.map Prod.fst, ks.contains s = false) :
    popKeys (updRec r kvs) ks = updRec (popKeys r ks) kvs := by
  induction kvs generalizing r with
  | nil => rfl
  | cons u us ih =>
    have hu : ks.contains u.1 = false := h u.1 (by simp)
    have hrest : ∀ s ∈ us.map Prod.fst, ks.contains s = false := by
      intro s hs
      exact h s (by simp [hs])
    show popKeys (updRec (recSet r u.1 u.2) us) ks = updRec (recSet (popKeys r ks) u.1 u.2) us
    rw [ih _ hrest, popKeys_recSet _ _ _ _ hu]

theorem assembleTail_popKeys (m : DeterministicRNG) (cfg : CVal) (ctx : Context)
    (it sc : String) (op : OpsOut) (r1 : Gen) (cache : IdentityCache) (call : Record) :
    assembleTail m cfg ctx it sc op r1 cache (popKeys call suppressedFields)
      = (popKeys (assembleTail m cfg ctx it sc op r1 cache call).1 suppressedFields,
         (assembleTail m cfg ctx it sc op r1 cache call).2) := by
  dsimp only [assembleTail]
  cases hcl : cacheLookup cache (ctx.customer_segment, ctx.channel, firstWord sc) with
  | none =>
    simp only [hcl]
    rw [← popKeys_updRec _ _ _ (by simp [suppressedFields]),
      ← popKeys_updRec _ _ _ (by simp [suppressedFields]),
      ← popKeys_updRec _ _ _ (by simp [suppressedFields]),
      ← popKeys_updRec _ _ _ (by simp [suppressedFields]),
      ← popKeys_updRec _ _ _ (by simp [suppressedFields]),
      ← popKeys_updRec _ _ _ (by simp [suppressedFields]),
      ← popKeys_updRec _ _ _ (by simp [suppressedFields])]
  | some iv =>
    simp only [hcl]
    rw [← popKeys_updRec _ _ _ (by simp [suppressedFields]),
      ← popKeys_updRec _ _ _ (by simp [suppressedFields]),
      ← popKeys_updRec _ _ _ (by simp [suppressedFields]),
      ← popKeys_updRec _ _ _ (by simp [suppressedFields]),
      ← popKeys_updRec _ _ _ (by simp [suppressedFields]),
      ← popKeys_updRec _ _ _ (by simp [suppressedFields]),
      ← popKeys_updRec _ _ _ (by simp [suppressedFields])]

/-- C8: when the sampled channel is the text variant, the record produced
by the per-call body equals the fully assembled record with exactly the
three suppressed fields (Hold_time, Silence_ratio, Interruptions_count)
removed — every other field is present unchanged — and for every
non-text channel nothing is removed; the cache and channel outputs agree
in both cases. -/
theorem c8_text_suppression (seed : ℕ) (cfg : CVal) (day : DayPlan)
    (an tm sh bk : String) (i : ℕ) (cache : IdentityCache) :
    (buildCall seed cfg day an tm sh bk i cache).channel
      = (buildCallFull seed cfg day an tm sh bk i cache).channel ∧
    (buildCall seed cfg day an tm sh bk i cache).cache
      = (buildCallFull seed cfg day an tm sh bk i cache).cache ∧
    ((buildCallFull seed cfg day an tm sh bk i cache).channel = "text" →
      (buildCall seed cfg day an tm sh bk i cache).call
        = popKeys (buildCallFull seed cfg day an tm sh bk i cache).call suppressedFields ∧
      (∀ k, suppressedFields.contains k = false →
        lookupRec (buildCall seed cfg day an tm sh bk i cache).call k
          = lookupRec (buildCallFull seed cfg day an tm sh bk i cache).call k) ∧
      (∀ k, suppressedFields.contains k = true →
        lookupRec (buildCall seed cfg day an tm sh bk i cache).call k = none)) ∧
    ((buildCallFull seed cfg day an tm sh bk i cache).channel ≠ "text" →
      (buildCall seed cfg day an tm sh bk i cache).call
        = (buildCallFull seed cfg day an tm sh bk i cache).call) := by
  unfold buildCall buildCallFull
  dsimp only
  by_cases hch : (buildCallPrefix seed cfg day an tm sh bk i).channel = "text"
  · rw [if_pos hch, assembleTail_popKeys]
    refine ⟨rfl, rfl, fun _ => ⟨rfl, ?_, ?_⟩, fun hn => absurd hch hn⟩
    · intro k hk
      rw [lookupRec_popKeys, hk]
      simp
    · intro k hk
      rw [lookupRec_popKeys, hk]
      simp
  · rw [if_neg hch]
    exact ⟨rfl, rfl, fun hcontra => absurd hcontra hch, fun _ => rfl⟩

theorem c8_witness :
    lookupRec (buildCall 7 cfgT dayMon "Anna_Ziegler" "Team A" "Early" "Morning" 0 []).call
        "Hold_time" = none ∧
    lookupRec (buildCall 7 cfgT dayMon "Anna_Ziegler" "Team A" "Early" "Morning" 0 []).call
        "customer_segment"
      = lookupRec (buildCallFull 7 cfgT dayMon "Anna_Ziegler" "Team A" "Early" "Morning" 0
          []).call "customer_segment" := by
  have hch : (buildCallFull 7 cfgT dayMon "Anna_Ziegler" "Team A" "Early" "Morning" 0
      []).channel = "text" := by
    with_unfolding_all rfl
  have h := c8_text_suppression 7 cfgT dayMon "Anna_Ziegler" "Team A" "Early" "Morning" 0 []
  exact ⟨(h.2.2.1 hch).2.2 "Hold_time" (by decide),
    (h.2.2.1 hch).2.1 "customer_segment" (by decide)⟩

set_option maxRecDepth 400000 in
theorem c5_witness :
    foldE (callStep 7 cfgC5 true) ([], [])
        (((runSlots cfgC5 0 0 7).getD 0 ⟨dayMon, "", "", "", "", 0⟩)
          :: [(runSlots cfgC5 0 0 7).getD 1 ⟨dayMon, "", "", "", "", 0⟩])
      = .error "field fails schema: Silence_ratio" :=
  c5_validation_abort_amended 7 cfgC5 true ([], [])
    ((runSlots cfgC5 0 0 7).getD 0 ⟨dayMon, "", "", "", "", 0⟩)
    [(runSlots cfgC5 0 0 7).getD 1 ⟨dayMon, "", "", "", "", 0⟩]
    "field fails schema: Silence_ratio" (by with_unfolding_all rfl)

theorem drawDigits_spec (n : ℕ) : ∀ r : Gen,
    ((drawDigits r n).1).length = n ∧ ∀ d ∈ (drawDigits r n).1, d < 10 := by
  induction n with
  | zero => exact fun r => ⟨rfl, by simp [drawDigits]⟩
  | succ k ih =>
    intro r
    dsimp only [drawDigits, Gen.integers, Gen.next]
    rcases hrec : drawDigits ⟨r.seed, r.pos + 1⟩ k with ⟨tl, r2⟩
    have hih := ih ⟨r.seed, r.pos + 1⟩
    rw [hrec] at hih
    simp only [hrec]
    refine ⟨by simp [hih.1], ?_⟩
    intro d hd
    rcases List.mem_cons.mp hd with h | h
    · have h1 : mix r.seed r.pos % (10 - 0) < 10 - 0 := Nat.mod_lt _ (by norm_num)
      omega
    · exact hih.2 d h

theorem aniPatOk_of (ds : List ℕ) (hlen9 : 9 ≤ ds.length) (hlen12 : ds.length ≤ 12)
    (hds : ∀ d ∈ ds, d < 10) :
    aniPatOk ("+49" ++ String.mk (ds.map (fun d => Char.ofNat (48 + d)))) = true := by
  have hdata : ("+49" ++ String.mk (ds.map (fun d => Char.ofNat (48 + d)))).data
      = Char.ofNat 43 :: Char.ofNat 52 :: Char.ofNat 57
        :: ds.map (fun d => Char.ofNat (48 + d)) := by
    rw [String.data_append]
    rfl
  unfold aniPatOk
  rw [hdata]
  simp only [beq_self_eq_true, Bool.true_and, List.length_map, Bool.and_eq_true,
    decide_eq_true_eq]
  refine ⟨⟨hlen9, hlen12⟩, ?_⟩
  rw [List.all_eq_true]
  intro c hc
  rw [List.mem_map] at hc
  obtain ⟨d, hdm, rfl⟩ := hc
  have h10 := hds d hdm
  unfold isDigitCh
  have hn : (Char.ofNat (48 + d)).toNat = 48 + d := by interval_cases d <;> decide
  rw [hn]
  simp only [Bool.and_eq_true, decide_eq_true_eq]
  omega

theorem aniPatOk_generate (m : DeterministicRNG) (key : List String) :
    aniPatOk (generate_german_ani m key) = true := by
  unfold generate_german_ani
  dsimp only [Gen.integers, Gen.next]
  apply aniPatOk_of
  · rw [(drawDigits_spec _ _).1]
    omega
  · rw [(drawDigits_spec _ _).1]
    have := Nat.mod_lt (mix (seed_for m ([Prim.s "ani"] ++ key.map Prim.s)).seed
      (seed_for m ([Prim.s "ani"] ++ key.map Prim.s)).pos) (show 0 < 13 - 9 by norm_num)
    omega
  · exact (drawDigits_spec _ _).2

theorem lookupRec_popKeys_notin (r : Record) (ks : List String) (k : String)
    (h : ks.contains k = false) :
    lookupRec (popKeys r ks) k = lookupRec r k := by
  rw [lookupRec_popKeys, h]
  simp

theorem lookupRec_cons (kv : String × JVal) (rest : Record) (k : String) :
    lookupRec (kv :: rest) k = if kv.1 == k then some kv.2 else lookupRec rest k := rfl

theorem buildCallPrefix_lookups (seed : ℕ) (cfg : CVal) (day : DayPlan)
    (an tm sh bk : String) (i : ℕ) :
    lookupRec (buildCallPrefix seed cfg day an tm sh bk i).call "customer_segment"
      = some (.s (buildCallPrefix seed cfg day an tm sh bk i).ctx.customer_segment) ∧
    lookupRec (buildCallPrefix seed cfg day an tm sh bk i).call "channel"
      = some (.s (buildCallPrefix seed cfg day an tm sh bk i).ctx.channel) ∧
    lookupRec (buildCallPrefix seed cfg day an tm sh bk i).call "scenario"
      = some (.s (buildCallPrefix seed cfg day an tm sh bk i).scenario) ∧
    lookupRec (buildCallPrefix seed cfg day an tm sh bk i).call "region"
      = some (.s (buildCallPrefix seed cfg day an tm sh bk i).ctx.region) ∧
    lookupRec (buildCallPrefix seed cfg day an tm sh bk i).call "language"
      = some (.s (buildCallPrefix seed cfg day an tm sh bk i).ctx.language) := by
  unfold buildCallPrefix
  dsimp only
  simp only [updRec, List.foldl_cons, List.foldl_nil]
  refine ⟨?_, ?_, ?_, ?_, ?_⟩ <;>
    · repeat
        first
        | rw [lookupRec_recSet, if_neg (by decide)]
        | rw [lookupRec_cons, if_neg (by decide)]
      first
      | rw [lookupRec_recSet, if_pos (by decide)]
      | rw [lookupRec_cons, if_pos (by decide)]

theorem cacheLookup_append_some (c : IdentityCache) (e : CustKey × IdentVal)
    (k : CustKey) (v : IdentVal) (h : cacheLookup c k = some v) :
    cacheLookup (c ++ [e]) k = some v := by
  induction c with
  | nil => simp [cacheLookup] at h
  | cons hd tl ih =>
    rw [List.cons_append]
    show (if hd.1 = k then some hd.2 else cacheLookup (tl ++ [e]) k) = some v
    have h2 : (if hd.1 = k then some hd.2 else cacheLookup tl k) = some v := h
    by_cases hk : hd.1 = k
    · rw [if_pos hk] at h2 ⊢
      exact h2
    · rw [if_neg hk] at h2 ⊢
      exact ih h2

theorem cacheLookup_append_new (c : IdentityCache) (e : CustKey × IdentVal)
    (h : cacheLookup c e.1 = none) :
    cacheLookup (c ++ [e]) e.1 = some e.2 := by
  induction c with
  | nil => simp [cacheLookup]
  | cons hd tl ih =>
    rw [List.cons_append]
    show (if hd.1 = e.1 then some hd.2 else cacheLookup (tl ++ [e]) e.1) = some e.2
    have h2 : (if hd.1 = e.1 then some hd.2 else cacheLookup tl e.1) = none := h
    by_cases hk : hd.1 = e.1
    · rw [if_pos hk] at h2
      exact Option.noConfusion h2
    · rw [if_neg hk] at h2
      rw [if_neg hk]
      exact ih h2

theorem cacheLookup_mem (c : IdentityCache) (k : CustKey) (v : IdentVal)
    (h : cacheLookup c k = some v) : ∃ e ∈ c, e.2 = v := by
  induction c with
  | nil => simp [cacheLookup] at h
  | cons hd tl ih =>
    have h2 : (if hd.1 = k then some hd.2 else cacheLookup tl k) = some v := h
    by_cases hk : hd.1 = k
    · rw [if_pos hk] at h2
      exact ⟨hd, by simp, by simpa using h2⟩
    · rw [if_neg hk] at h2
      obtain ⟨e2, he, hev⟩ := ih h2
      exact ⟨e2, by simp [he], hev⟩

theorem write_call_json_ok (c : Record) (v : Bool) (r : Record)
    (h : write_call_json c v = .ok r) : r = c := by
  unfold write_call_json at h
  split at h
  · split at h
    · exact (Except.ok.inj h).symm
    · exact Except.noConfusion h
  · exact (Except.ok.inj h).symm

/-- The assembled tail record: its derived customer key equals the key
computed from the sampled context, its identity triple is determined by
the cache branch, and the cache is extended exactly on a miss. -/
theorem assembleTail_spec (m : DeterministicRNG) (cfg : CVal) (ctx : Context)
    (it sc : String) (op : OpsOut) (r1 : Gen) (cache : IdentityCache) (call : Record)
    (hsg : lookupRec call "customer_segment" = some (.s ctx.customer_segment))
    (hcn : lookupRec call "channel" = some (.s ctx.channel))
    (hscn : lookupRec call "scenario" = some (.s sc))
    (hrg : lookupRec call "region" = some (.s ctx.region))
    (hlg : lookupRec call "language" = some (.s ctx.language)) :
    ∃ a rg lg : String,
      custKeyOf (assembleTail m cfg ctx it sc op r1 cache call).1
        = (ctx.customer_segment, ctx.channel, firstWord sc) ∧
      identOf (assembleTail m cfg ctx it sc op r1 cache call).1 = (a, rg, lg) ∧
      ((cacheLookup cache (ctx.customer_segment, ctx.channel, firstWord sc) = none ∧
        (assembleTail m cfg ctx it sc op r1 cache call).2
          = cache ++ [((ctx.customer_segment, ctx.channel, firstWord sc), (a, rg, lg))] ∧
        aniPatOk a = true) ∨
       (cacheLookup cache (ctx.customer_segment, ctx.channel, firstWord sc)
          = some (a, rg, lg) ∧
        (assembleTail m cfg ctx it sc op r1 cache call).2 = cache)) := by
  dsimp only [assembleTail]
  cases hcl : cacheLookup cache (ctx.customer_segment, ctx.channel, firstWord sc) with
  | none =>
    try rw [hcl]
    dsimp only
    refine ⟨generate_german_ani m [ctx.customer_segment, ctx.channel, firstWord sc],
      ctx.region, ctx.language, ?_, ?_, Or.inl ⟨rfl, rfl, aniPatOk_generate m _⟩⟩
    · unfold custKeyOf strField
      simp only [updRec, List.foldl_cons, List.foldl_nil]
      repeat
        first
        | rw [lookupRec_recSet, if_neg (by decide)]
        | rw [lookupRec_recSet, if_pos (by decide)]
      rw [hsg, hcn, hscn]
    · unfold identOf strField
      simp only [updRec, List.foldl_cons, List.foldl_nil]
      repeat
        first
        | rw [lookupRec_recSet, if_neg (by decide)]
        | rw [lookupRec_recSet, if_pos (by decide)]
      rw [hrg, hlg]
  | some iv =>
    try rw [hcl]
    dsimp only
    refine ⟨iv.1, iv.2.1, iv.2.2, ?_, ?_, Or.inr ⟨rfl, rfl⟩⟩
    · unfold custKeyOf strField
      simp only [updRec, List.foldl_cons, List.foldl_nil]
      repeat
        first
        | rw [lookupRec_recSet, if_neg (by decide)]
        | rw [lookupRec_recSet, if_pos (by decide)]
      rw [hsg, hcn, hscn]
    · unfold identOf strField
      simp only [updRec, List.foldl_cons, List.foldl_nil]
      repeat
        first
        | rw [lookupRec_recSet, if_neg (by decide)]
        | rw [lookupRec_recSet, if_pos (by decide)]

/-- The same tail computation across the channel-dependent suppression of
cli.py lines 94-98: popping the three suppressed operational fields
changes neither the derived key nor the identity handling. -/
theorem assembleTail_pop_spec (m : DeterministicRNG) (cfg : CVal) (ctx : Context)
    (it sc ch : String) (op : OpsOut) (r1 : Gen) (cache : IdentityCache) (call : Record)
    (hsg : lookupRec call "customer_segment" = some (.s ctx.customer_segment))
    (hcn : lookupRec call "channel" = some (.s ctx.channel))
    (hscn : lookupRec call "scenario" = some (.s sc))
    (hrg : lookupRec call "region" = some (.s ctx.region))
    (hlg : lookupRec call "language" = some (.s ctx.language)) :
    ∃ a rg lg : String,
      custKeyOf (assembleTail m cfg ctx it sc op r1 cache
          (if ch = "text" then popKeys call suppressedFields else call)).1
        = (ctx.customer_segment, ctx.channel, firstWord sc) ∧
      identOf (assembleTail m cfg ctx it sc op r1 cache
          (if ch = "text" then popKeys call suppressedFields else call)).1 = (a, rg, lg) ∧
      ((cacheLookup cache (ctx.customer_segment, ctx.channel, firstWord sc) = none ∧
        (assembleTail m cfg ctx it sc op r1 cache
            (if ch = "text" then popKeys call suppressedFields else call)).2
          = cache ++ [((ctx.customer_segment, ctx.channel, firstWord sc), (a, rg, lg))] ∧
        aniPatOk a = true) ∨
       (cacheLookup cache (ctx.customer_segment, ctx.channel, firstWord sc)
          = some (a, rg, lg) ∧
        (assembleTail m cfg ctx it sc op r1 cache
            (if ch = "text" then popKeys call suppressedFields else call)).2 = cache)) := by
  by_cases hch : ch = "text"
  · rw [if_pos hch]
    exact assembleTail_spec m cfg ctx it sc op r1 cache (popKeys call suppressedFields)
      (by rw [lookupRec_popKeys_notin _ _ _ (by decide)]; exact hsg)
      (by rw [lookupRec_popKeys_notin _ _ _ (by decide)]; exact hcn)
      (by rw [lookupRec_popKeys_notin _ _ _ (by decide)]; exact hscn)
      (by rw [lookupRec_popKeys_notin _ _ _ (by decide)]; exact hrg)
      (by rw [lookupRec_popKeys_notin _ _ _ (by decide)]; exact hlg)
  · rw [if_neg hch]
    exact assembleTail_spec m cfg ctx it sc op r1 cache call hsg hcn hscn hrg hlg

/-- The per-call body: the produced record determines a customer key and
an identity triple, and the cache is either extended by exactly that new
entry (key absent, fresh well-formed ANI) or returned unchanged (key
present, stored identity reused). -/
theorem buildCall_spec (seed : ℕ) (cfg : CVal) (day : DayPlan)
    (an tm sh bk : String) (i : ℕ) (cache : IdentityCache) :
    ∃ ck : CustKey, ∃ a rg lg : String,
      custKeyOf (buildCall seed cfg day an tm sh bk i cache).call = ck ∧
      identOf (buildCall seed cfg day an tm sh bk i cache).call = (a, rg, lg) ∧
      ((cacheLookup cache ck = none ∧
        (buildCall seed cfg day an tm sh bk i cache).cache = cache ++ [(ck, (a, rg, lg))] ∧
        aniPatOk a = true) ∨
       (cacheLookup cache ck = some (a, rg, lg) ∧
        (buildCall seed cfg day an tm sh bk i cache).cache = cache)) := by
  obtain ⟨h1, h2, h3, h4, h5⟩ := buildCallPrefix_lookups seed cfg day an tm sh bk i
  obtain ⟨a, rg, lg, hk, hid, hor⟩ :=
    assembleTail_pop_spec (buildCallPrefix seed cfg day an tm sh bk i).m cfg
      (buildCallPrefix seed cfg day an tm sh bk i).ctx
      (buildCallPrefix seed cfg day an tm sh bk i).intent_str
      (buildCallPrefix seed cfg day an tm sh bk i).scenario
      (buildCallPrefix seed cfg day an tm sh bk i).channel
      (buildCallPrefix seed cfg day an tm sh bk i).op
      (buildCallPrefix seed cfg day an tm sh bk i).rcall
      cache (buildCallPrefix seed cfg day an tm sh bk i).call h1 h2 h3 h4 h5
  unfold buildCall
  dsimp only
  exact ⟨_, a, rg, lg, hk, hid, hor⟩

/-- One loop iteration preserves the cache-record invariant. -/
theorem callStep_inv (seed : ℕ) (cfg : CVal) (validate : Bool)
    (st st2 : IdentityCache × List Record) (slot : Slot)
    (hinv : CacheInv st.1 st.2) (h : callStep seed cfg validate st slot = .ok st2) :
    CacheInv st2.1 st2.2 := by
  obtain ⟨hinv1, hinv2⟩ := hinv
  obtain ⟨ck, a, rg, lg, hck, hid, hor⟩ :=
    buildCall_spec seed cfg slot.day slot.agent slot.team slot.shift slot.bucket slot.idx st.1
  unfold callStep at h
  dsimp only at h
  split at h
  next r hw =>
    have hr : r = _ := write_call_json_ok _ _ _ hw
    subst hr
    obtain rfl := (Except.ok.inj h).symm
    dsimp only
    refine ⟨?_, ?_⟩
    · intro x hmem
      rw [List.mem_append] at hmem
      rcases hmem with hmem | hmem
      · obtain ⟨hlk, hani⟩ := hinv1 x hmem
        rcases hor with ⟨hnone, hcache, hok⟩ | ⟨hsome, hcache⟩
        · rw [hcache]
          exact ⟨cacheLookup_append_some _ _ _ _ hlk, hani⟩
        · rw [hcache]
          exact ⟨hlk, hani⟩
      · rw [List.mem_singleton] at hmem
        subst hmem
        rcases hor with ⟨hnone, hcache, hok⟩ | ⟨hsome, hcache⟩
        · rw [hcache, hck, hid]
          exact ⟨cacheLookup_append_new st.1 (ck, (a, rg, lg)) hnone, hok⟩
        · rw [hcache, hck, hid]
          refine ⟨hsome, ?_⟩
          obtain ⟨e, hmem2, hev⟩ := cacheLookup_mem _ _ _ hsome
          have h2 := hinv2 e hmem2
          rw [hev] at h2
          exact h2
    · rcases hor with ⟨hnone, hcache, hok⟩ | ⟨hsome, hcache⟩
      · rw [hcache]
        intro e he
        rw [List.mem_append] at he
        rcases he with he | he
        · exact hinv2 e he
        · rw [List.mem_singleton] at he
          subst he
          exact hok
      · rw [hcache]
        exact hinv2
  next e hw =>
    exact Except.noConfusion h

/-- The per-step cache evolution: unchanged on a hit, extended by one
previously absent key on a miss. -/
theorem callStep_cache_shape (seed : ℕ) (cfg : CVal) (validate : Bool)
    (st st2 : IdentityCache × List Record) (slot : Slot)
    (h : callStep seed cfg validate st slot = .ok st2) :
    st2.1 = st.1 ∨ ∃ e, cacheLookup st.1 e.1 = none ∧ st2.1 = st.1 ++ [e] := by
  obtain ⟨ck, a, rg, lg, hck, hid, hor⟩ :=
    buildCall_spec seed cfg slot.day slot.agent slot.team slot.shift slot.bucket slot.idx st.1
  unfold callStep at h
  dsimp only at h
  split at h
  next r hw =>
    obtain rfl := (Except.ok.inj h).symm
    dsimp only
    rcases hor with ⟨hnone, hcache, hok⟩ | ⟨hsome, hcache⟩
    · exact Or.inr ⟨(ck, (a, rg, lg)), hnone, hcache⟩
    · exact Or.inl hcache
  next e hw =>
    exact Except.noConfusion h

/-- The whole fold preserves the cache-record invariant. -/
theorem foldE_inv (seed : ℕ) (cfg : CVal) (validate : Bool) (slots : List Slot) :
    ∀ st st2 : IdentityCache × List Record, CacheInv st.1 st.2 →
      foldE (callStep seed cfg validate) st slots = .ok st2 →
      CacheInv st2.1 st2.2 := by
  induction slots with
  | nil =>
    intro st st2 hinv h
    unfold foldE at h
    obtain rfl := Except.ok.inj h
    exact hinv
  | cons x xs ih =>
    intro st st2 hinv h
    unfold foldE at h
    split at h
    next b hw => exact ih b st2 (callStep_inv seed cfg validate st b x hinv hw) h
    next e hw => exact Except.noConfusion h

/-- A successful run leaves a cache tied to the emitted records by the
invariant. -/
theorem generate_dataset_cacheInv (cfg : CVal) (d1 d2 : Date) (seed : ℕ) (v : Bool)
    (recs : List Record) (h : generate_dataset cfg d1 d2 seed v = .ok recs) :
    ∃ cache : IdentityCache, CacheInv cache recs := by
  unfold generate_dataset at h
  split at h
  next st hf =>
    obtain rfl := Except.ok.inj h
    refine ⟨st.1, foldE_inv seed cfg v (runSlots cfg d1 d2 seed) ([], []) st ?_ hf⟩
    exact ⟨fun r hr => absurd hr (List.not_mem_nil r), fun e he => absurd he (List.not_mem_nil e)⟩
  next e hf =>
    exact Except.noConfusion h

/-- A record whose ANI field passes the pattern as a string field holds an
actual well-formed string entry under the ANI key. -/
theorem strField_ani_ok (r : Record) (h : aniPatOk (strField r "ANI") = true) :
    ∃ a, lookupRec r "ANI" = some (.s a) ∧ aniPatOk a = true := by
  cases hl : lookupRec r "ANI" with
  | none =>
    have h2 : strField r "ANI" = "" := by unfold strField; rw [hl]
    rw [h2] at h
    exact absurd h (by decide)
  | some v =>
    cases v with
    | s a =>
      have h2 : strField r "ANI" = a := by unfold strField; rw [hl]
      rw [h2] at h
      exact ⟨a, rfl, h⟩
    | q x =>
      have h2 : strField r "ANI" = "" := by unfold strField; rw [hl]
      rw [h2] at h
      exact absurd h (by decide)
    | i x =>
      have h2 : strField r "ANI" = "" := by unfold strField; rw [hl]
      rw [h2] at h
      exact absurd h (by decide)
    | b x =>
      have h2 : strField r "ANI" = "" := by unfold strField; rw [hl]
      rw [h2] at h
      exact absurd h (by decide)
    | obj o =>
      have h2 : strField r "ANI" = "" := by unfold strField; rw [hl]
      rw [h2] at h
      exact absurd h (by decide)
    | null =>
      have h2 : strField r "ANI" = "" := by unfold strField; rw [hl]
      rw [h2] at h
      exact absurd h (by decide)

/-- C9: within one generation run, records sharing the derived customer
key (segment, channel, scenario topic) carry identical ANI, region and
language values — cache hits reuse the stored identity — and each loop
iteration writes the IdentityCache entry for a key at most once: the
cache either stays unchanged or gains exactly one entry whose key was
previously absent. -/
theorem c9_identity_reuse (cfg : CVal) (d1 d2 : Date) (seed : ℕ) (validate : Bool)
    (recs : List Record) (h : generate_dataset cfg d1 d2 seed validate = .ok recs) :
    (∀ r1 ∈ recs, ∀ r2 ∈ recs, custKeyOf r1 = custKeyOf r2 → identOf r1 = identOf r2) ∧
    (∀ st st2 : IdentityCache × List Record, ∀ slot : Slot,
      callStep seed cfg validate st slot = .ok st2 →
      st2.1 = st.1 ∨ ∃ e, cacheLookup st.1 e.1 = none ∧ st2.1 = st.1 ++ [e]) := by
  constructor
  · obtain ⟨cache, i1, i2⟩ := generate_dataset_cacheInv cfg d1 d2 seed validate recs h
    intro r1 h1 r2 h2 hkey
    have ha := (i1 r1 h1).1
    have hb := (i1 r2 h2).1
    rw [hkey] at ha
    exact Option.some.inj (ha.symm.trans hb)
  · intro st st2 slot hcs
    exact callStep_cache_shape seed cfg validate st st2 slot hcs

/-- C10: every ANI the generator draws matches the +49 pattern with 9 to
12 digits, and consequently every record of a successful run — including
text-channel records, which skip schema validation — carries a
well-formed ANI string under its ANI key. -/
theorem c10_ani_wellformed (cfg : CVal) (d1 d2 : Date) (seed : ℕ) (validate : Bool)
    (recs : List Record) (h : generate_dataset cfg d1 d2 seed validate = .ok recs) :
    (∀ m : DeterministicRNG, ∀ key : List String,
      aniPatOk (generate_german_ani m key) = true) ∧
    ∀ r ∈ recs, ∃ a, lookupRec r "ANI" = some (.s a) ∧ aniPatOk a = true := by
  refine ⟨fun m key => aniPatOk_generate m key, ?_⟩
  obtain ⟨cache, i1, i2⟩ := generate_dataset_cacheInv cfg d1 d2 seed validate recs h
  intro r hr
  exact strField_ani_ok r (i1 r hr).2


theorem getD_mem_of_lt {α : Type} (l : List α) (n : ℕ) (d : α) (h : n < l.length) :
    l.getD n d ∈ l := by
  induction l generalizing n with
  | nil => simp at h
  | cons x xs ih =>
    cases n with
    | zero => exact List.mem_cons_self x xs
    | succ k =>
      have hk : k < xs.length := by simpa using h
      exact List.mem_cons_of_mem x (ih k hk)

set_option maxRecDepth 400000 in
theorem genW_ok : generate_dataset cfgW 0 0 7 false = .ok recsW := by
  with_unfolding_all rfl

set_option maxRecDepth 400000 in
theorem lenW : recsW.length = 2 := by
  with_unfolding_all rfl

set_option maxRecDepth 400000 in
theorem ckW : custKeyOf (recsW.getD 0 []) = custKeyOf (recsW.getD 1 []) := by
  with_unfolding_all decide

set_option maxRecDepth 400000 in
theorem genT_ok : generate_dataset cfgT 0 0 7 true = .ok recsT := by
  with_unfolding_all rfl

set_option maxRecDepth 400000 in
theorem lenT : recsT.length = 2 := by
  with_unfolding_all rfl

theorem c9_witness :
    generate_dataset cfgW 0 0 7 false = .ok recsW ∧
    custKeyOf (recsW.getD 0 []) = custKeyOf (recsW.getD 1 []) ∧
    identOf (recsW.getD 0 []) = identOf (recsW.getD 1 []) :=
  ⟨genW_ok, ckW,
    (c9_identity_reuse cfgW 0 0 7 false recsW genW_ok).1
      (recsW.getD 0 []) (getD_mem_of_lt recsW 0 [] (by rw [lenW]; decide))
      (recsW.getD 1 []) (getD_mem_of_lt recsW 1 [] (by rw [lenW]; decide))
      ckW⟩

theorem c10_witness :
    generate_dataset cfgT 0 0 7 true = .ok recsT ∧
    ∃ a, lookupRec (recsT.getD 0 []) "ANI" = some (.s a) ∧ aniPatOk a = true :=
  ⟨genT_ok, (c10_ani_wellformed cfgT 0 0 7 true recsT genT_ok).2
    (recsT.getD 0 []) (getD_mem_of_lt recsT 0 [] (by rw [lenT]; decide))⟩

end SAGen
